import Mathlib

/-!
GBoot, a serial bootloader (Core/Src/gboot.c).

A shallow embedding of the bootloader: startup, command loop, command
dispatch, flash programming and boot transfer.  The C functions are
translated one by one into functions on an explicit machine state.  Every
interaction with the outside world (a read of the receive buffer, a HAL call,
a register access) is recorded as an `Event`, so that a run of a function
yields three things: how control left the function, the final machine state,
and the list of events it emitted, in order.

The outcomes of the hardware are not computed by the program.  They are taken
from the machine state as streams: entry `0` of a stream is the outcome of the
next call of that kind, and a call consumes it.  So a statement that holds for
every machine holds for every sequence of outcomes of the erase and program
calls.

Control does not always come back: `NVIC_SystemReset` and a successful boot
transfer never return, and the busy-wait at the head of `GBoot_SendResponse`
spins for as long as the UART is not ready.  A run therefore ends in
`Ctl.ret` or in `Ctl.stop` with the reason.  Whether a busy-wait ends is an
outcome of the hardware like the others (the stream `uart_ready`); a statement
about a response that is sent carries the hypothesis that the wait before it
ends.

Integers of the C program are natural numbers; `u32` truncates to 32 bits
where the C type does.  A byte shifted left is an `int` in C; the model keeps
the low 32 bits of the shifted value, which is what the conversion to
`uint32_t` in `addr |= ...` and `val |= ...` leaves of it.
-/

namespace GBoot

/-! ## Constants (Core/Inc/gboot_protocol.h, Core/Inc/gboot.h) -/

def GBOOT_CMD_SYNC : Nat := 0x5A
def GBOOT_ACK : Nat := 0x79
def GBOOT_NACK : Nat := 0x1F

def CMD_GET_INFO : Nat := 0x01
def CMD_ERASE_APP : Nat := 0x02
def CMD_WRITE_PAGE : Nat := 0x03
def CMD_RESET_DEV : Nat := 0x04
def CMD_JUMP_APP : Nat := 0x05

def GBOOT_MAGIC_KEY : Nat := 0x5AA5DEAD
def APP_START_ADDRESS : Nat := 0x08004000

def GBOOT_RX_BUF_SIZE : Nat := 2100
def GBOOT_TX_BUF_SIZE : Nat := 128

/-- Modelled from the spec: the macro FLASH_PAGE_SIZE comes from the vendor HAL
headers, which are not part of the repository (its definition in
gboot_protocol.h is commented out).  The handler's own comment
"[CMD][Addr(4)][Data(1024)] = 1029 bytes" and the commented-out define fix the
value used for the STM32F103 medium-density part: 1024. -/
def FLASH_PAGE_SIZE : Nat := 1024

/-- HAL_StatusTypeDef: HAL_OK. -/
def HAL_OK : Nat := 0
/-- HAL_StatusTypeDef: HAL_ERROR. -/
def HAL_ERROR : Nat := 1

/-- Truncation of a value to the width of `uint32_t`. -/
def u32 (x : Nat) : Nat := x % 2 ^ 32

/-! ## Events and machine state -/

/-- One observable action of the program. -/
inductive Event where
  /-- a read of `this->rx_buffer[i]` -/
  | rxRead (i : Nat)
  /-- a read of `BKP->DR1` -/
  | bkpRead
  /-- `BKP->DR1 = v` -/
  | bkpWrite (v : Nat)
  | pwrClkEnable
  | bkpClkEnable
  | enableBkUpAccess
  /-- `HAL_UARTEx_ReceiveToIdle_DMA(huart, rx_buffer, cap)` -/
  | receiveToIdle (cap : Nat)
  | flashUnlock
  | flashLock
  /-- `HAL_FLASHEx_Erase` of `nbPages` pages from `pageAddress` -/
  | flashErase (pageAddress nbPages : Nat)
  /-- `HAL_FLASH_Program(FLASH_TYPEPROGRAM_WORD, addr, val)` -/
  | flashProgram (addr val : Nat)
  /-- `HAL_UART_Transmit_DMA(huart, tx_buffer, len)`, with the `len` bytes handed over -/
  | uartTransmit (bytes : List Nat)
  | systemReset
  /-- a volatile 32-bit read of the word stored at `addr` -/
  | wordRead (addr : Nat)
  | uartDeInit
  | dmaDeInitRx
  | dmaDeInitTx
  | rccDeInit
  | halDeInit
  | sysTickCtrl (v : Nat)
  | sysTickLoad (v : Nat)
  | sysTickVal (v : Nat)
  /-- `__set_MSP(v)` -/
  | setMSP (v : Nat)
  /-- the call through the function pointer `JumpToApplication` -/
  | branch (addr : Nat)
  deriving DecidableEq, Repr

/-- The data members of `struct GBoot_t` (Core/Inc/gboot.h). -/
structure GBoot_t where
  rx_buffer : List Nat
  tx_buffer : List Nat
  cmd_received : Nat
  rx_len : Nat
  is_busy : Nat

/-- The bootloader instance together with the hardware it talks to. -/
structure Machine where
  /-- the instance `gboot` -/
  this : GBoot_t
  /-- backup register `BKP->DR1` -/
  bkp_dr1 : Nat
  /-- LOCK bit of the flash controller -/
  flash_locked : Bool
  /-- memory, one byte per address -/
  mem : Nat → Nat
  /-- entry `n`: whether the `n`-th coming busy-wait on `huart->gState`
  gets to see `HAL_UART_STATE_READY` -/
  uart_ready : Nat → Bool
  /-- entry `n`: whether the `n`-th coming `HAL_FLASHEx_Erase` reports `HAL_OK` -/
  erase_ok : Nat → Bool
  /-- entry `n`: whether the `n`-th coming `HAL_FLASH_Program` reports `HAL_OK` -/
  program_ok : Nat → Bool

/-- Why control does not come back from a call. -/
inductive Halt where
  /-- the busy-wait of `GBoot_SendResponse` spins forever -/
  | blocked
  /-- `NVIC_SystemReset` -/
  | reset
  /-- control was handed to the application -/
  | jumped
  deriving DecidableEq, Repr

/-- How control leaves a function. -/
inductive Ctl (α : Type) where
  | ret (a : α)
  | stop (h : Halt)

/-- The result of running a function on a machine. -/
structure Step (α : Type) where
  ctl : Ctl α
  m : Machine
  out : List Event

/-- A function of the program: a machine-state transformer that emits events. -/
def Exec (α : Type) : Type := Machine → Step α

def Exec.pure {α : Type} (a : α) : Exec α :=
  fun m => { ctl := Ctl.ret a, m := m, out := [] }

/-- Sequencing: the second part runs only when the first one returns. -/
def Exec.bind {α β : Type} (x : Exec α) (f : α → Exec β) : Exec β :=
  fun m =>
    match (x m).ctl with
    | Ctl.ret a => { ctl := (f a (x m).m).ctl, m := (f a (x m).m).m,
                     out := (x m).out ++ (f a (x m).m).out }
    | Ctl.stop h => { ctl := Ctl.stop h, m := (x m).m, out := (x m).out }

instance : Monad Exec where
  pure := Exec.pure
  bind := Exec.bind

/-- Whether control came back. -/
def Step.returned {α : Type} (r : Step α) : Bool :=
  match r.ctl with
  | Ctl.ret _ => true
  | Ctl.stop _ => false

/-! ## Hardware and HAL primitives -/

/-- Emit one event and return. -/
def emit (e : Event) : Exec Unit :=
  fun m => { ctl := Ctl.ret (), m := m, out := [e] }

/-- The read `this->rx_buffer[i]`. -/
def rxRead (i : Nat) : Exec Nat :=
  fun m => { ctl := Ctl.ret (m.this.rx_buffer.getD i 0), m := m, out := [Event.rxRead i] }

/-- The little-endian 32-bit word stored in memory at `addr`. -/
def memWord (mem : Nat → Nat) (addr : Nat) : Nat :=
  mem addr + 2 ^ 8 * mem (u32 (addr + 1)) + 2 ^ 16 * mem (u32 (addr + 2))
    + 2 ^ 24 * mem (u32 (addr + 3))

/-- The read `*(__IO uint32_t*) addr`. -/
def wordRead (addr : Nat) : Exec Nat :=
  fun m => { ctl := Ctl.ret (memWord m.mem addr), m := m, out := [Event.wordRead addr] }

def HAL_FLASH_Unlock : Exec Unit :=
  fun m => { ctl := Ctl.ret (), m := { m with flash_locked := false }, out := [Event.flashUnlock] }

def HAL_FLASH_Lock : Exec Unit :=
  fun m => { ctl := Ctl.ret (), m := { m with flash_locked := true }, out := [Event.flashLock] }

/-- Memory after a successful erase of `nbPages` pages from `pageAddress`. -/
def eraseMem (mem : Nat → Nat) (pageAddress nbPages : Nat) : Nat → Nat :=
  fun a => if pageAddress ≤ a ∧ a < pageAddress + nbPages * FLASH_PAGE_SIZE then 0xFF else mem a

/-- The call `HAL_FLASHEx_Erase`; its status is the next entry of `erase_ok`. -/
def HAL_FLASHEx_Erase (pageAddress nbPages : Nat) : Exec Nat :=
  fun m =>
    { ctl := Ctl.ret (if m.erase_ok 0 then HAL_OK else HAL_ERROR),
      m := { m with
        mem := if m.erase_ok 0 then eraseMem m.mem pageAddress nbPages else m.mem,
        erase_ok := fun n => m.erase_ok (n + 1) },
      out := [Event.flashErase pageAddress nbPages] }

/-- Memory after a successful word program: the four bytes of `val`, lowest first. -/
def programMem (mem : Nat → Nat) (addr val : Nat) : Nat → Nat :=
  fun a =>
    if a = addr then val % 256
    else if a = u32 (addr + 1) then val / 2 ^ 8 % 256
    else if a = u32 (addr + 2) then val / 2 ^ 16 % 256
    else if a = u32 (addr + 3) then val / 2 ^ 24 % 256
    else mem a

/-- The call `HAL_FLASH_Program(FLASH_TYPEPROGRAM_WORD, addr, val)`; its status
is the next entry of `program_ok`. -/
def HAL_FLASH_Program (addr val : Nat) : Exec Nat :=
  fun m =>
    { ctl := Ctl.ret (if m.program_ok 0 then HAL_OK else HAL_ERROR),
      m := { m with
        mem := if m.program_ok 0 then programMem m.mem addr val else m.mem,
        program_ok := fun n => m.program_ok (n + 1) },
      out := [Event.flashProgram addr val] }

/-- The loop `while (this->huart->gState != HAL_UART_STATE_READY);`.  Its body
is empty, so all it does is end or not; which one is the next entry of
`uart_ready`. -/
def waitUartReady : Exec Unit :=
  fun m =>
    if m.uart_ready 0 then
      { ctl := Ctl.ret (), m := { m with uart_ready := fun n => m.uart_ready (n + 1) }, out := [] }
    else
      { ctl := Ctl.stop Halt.blocked, m := m, out := [] }

/-- The first `n` bytes behind the pointer `src` overwrite the first `n` bytes of `dst`. -/
def memcpy (dst src : List Nat) (n : Nat) : List Nat :=
  (List.range n).map (fun i => src.getD i 0) ++ dst.drop n

/-- The `memcpy(this->tx_buffer, data, len)` of `GBoot_SendResponse`. -/
def copyToTx (data : List Nat) (len : Nat) : Exec Unit :=
  fun m =>
    { ctl := Ctl.ret (),
      m := { m with this := { m.this with tx_buffer := memcpy m.this.tx_buffer data len } },
      out := [] }

/-- The call `HAL_UART_Transmit_DMA(this->huart, this->tx_buffer, len)`. -/
def HAL_UART_Transmit_DMA (len : Nat) : Exec Unit :=
  fun m => { ctl := Ctl.ret (), m := m, out := [Event.uartTransmit (m.this.tx_buffer.take len)] }

/-- The call `NVIC_SystemReset()`: control does not come back. -/
def NVIC_SystemReset : Exec Unit :=
  fun m => { ctl := Ctl.stop Halt.reset, m := m, out := [Event.systemReset] }

/-- The call `JumpToApplication()`: control does not come back. -/
def JumpToApplication (addr : Nat) : Exec Unit :=
  fun m => { ctl := Ctl.stop Halt.jumped, m := m, out := [Event.branch addr] }

/-- The read of `BKP->DR1`. -/
def bkpRead : Exec Nat :=
  fun m => { ctl := Ctl.ret m.bkp_dr1, m := m, out := [Event.bkpRead] }

/-- The write `BKP->DR1 = v`. -/
def bkpWrite (v : Nat) : Exec Unit :=
  fun m => { ctl := Ctl.ret (), m := { m with bkp_dr1 := v }, out := [Event.bkpWrite v] }

/-- The read of the flag `this->cmd_received`. -/
def getCmdReceived : Exec Nat :=
  fun m => { ctl := Ctl.ret m.this.cmd_received, m := m, out := [] }

/-- The write `this->cmd_received = v`. -/
def setCmdReceived (v : Nat) : Exec Unit :=
  fun m => { ctl := Ctl.ret (), m := { m with this := { m.this with cmd_received := v } }, out := [] }

/-- The read of `this->rx_len`. -/
def getRxLen : Exec Nat :=
  fun m => { ctl := Ctl.ret m.this.rx_len, m := m, out := [] }

/-! ## The program (Core/Src/gboot.c) -/

/-- The constructor `GBoot_Create`: flags cleared, receive buffer zeroed. -/
def GBoot_Create (instance_ : GBoot_t) : GBoot_t :=
  { instance_ with
    cmd_received := 0
    is_busy := 0
    rx_buffer := List.replicate GBOOT_RX_BUF_SIZE 0 }

/-- The callback `GBoot_OnRxEvent`. -/
def GBoot_OnRxEvent (this : GBoot_t) (Size : Nat) : GBoot_t :=
  { this with rx_len := Size % 2 ^ 16, cmd_received := 1 }

def GBoot_SendResponse (data : List Nat) (len : Nat) : Exec Unit := do
  waitUartReady
  let len := if len > GBOOT_TX_BUF_SIZE then GBOOT_TX_BUF_SIZE else len
  copyToTx data len
  HAL_UART_Transmit_DMA len

def GBoot_SendAck : Exec Unit :=
  GBoot_SendResponse [GBOOT_ACK] 1

def GBoot_SendNack : Exec Unit :=
  GBoot_SendResponse [GBOOT_NACK] 1

def GBoot_JumpToApp : Exec Unit := do
  let sp ← wordRead APP_START_ADDRESS
  if sp &&& 0x2FFE0000 = 0x20000000 then
    let JumpAddress ← wordRead (APP_START_ADDRESS + 4)
    emit Event.uartDeInit
    emit Event.dmaDeInitRx
    emit Event.dmaDeInitTx
    emit Event.rccDeInit
    emit Event.halDeInit
    emit (Event.sysTickCtrl 0)
    emit (Event.sysTickLoad 0)
    emit (Event.sysTickVal 0)
    let msp ← wordRead APP_START_ADDRESS
    emit (Event.setMSP msp)
    JumpToApplication JumpAddress
  else
    pure ()

/-- The loop `for (i = 0; i < FLASH_PAGE_SIZE; i += 4)` of the WRITE_PAGE
handler, entered at `i`; `pData` is `&this->rx_buffer[5]`.  The value returned
is the local `status`. -/
def writeLoop (addr : Nat) (i : Nat) : Exec Nat :=
  if h : i < FLASH_PAGE_SIZE then do
    let val := 0
    let b0 ← rxRead (5 + (i + 0))
    let val := val ||| u32 (b0 <<< 0)
    let b1 ← rxRead (5 + (i + 1))
    let val := val ||| u32 (b1 <<< 8)
    let b2 ← rxRead (5 + (i + 2))
    let val := val ||| u32 (b2 <<< 16)
    let b3 ← rxRead (5 + (i + 3))
    let val := val ||| u32 (b3 <<< 24)
    let st ← HAL_FLASH_Program (u32 (addr + i)) val
    if st ≠ HAL_OK then
      pure 1
    else
      writeLoop addr (i + 4)
  else
    pure 0
termination_by FLASH_PAGE_SIZE - i
decreasing_by omega

def GBoot_ProcessCommand : Exec Unit := do
  let rx_len ← getRxLen
  if rx_len < 1 then
    pure ()
  else
    let cmd ← rxRead 0
    if cmd = CMD_GET_INFO then
      GBoot_SendAck
      GBoot_SendResponse [0x01, 0x02] 2
    else if cmd = CMD_ERASE_APP then
      HAL_FLASH_Unlock
      let st ← HAL_FLASHEx_Erase APP_START_ADDRESS 48
      if st = HAL_OK then
        GBoot_SendAck
      else
        GBoot_SendNack
      HAL_FLASH_Lock
    else if cmd = CMD_WRITE_PAGE then
      let rx_len ← getRxLen
      if rx_len < FLASH_PAGE_SIZE + 5 then
        GBoot_SendNack
      else
        let addr := 0
        let a1 ← rxRead 1
        let addr := addr ||| u32 (a1 <<< 0)
        let a2 ← rxRead 2
        let addr := addr ||| u32 (a2 <<< 8)
        let a3 ← rxRead 3
        let addr := addr ||| u32 (a3 <<< 16)
        let a4 ← rxRead 4
        let addr := addr ||| u32 (a4 <<< 24)
        if addr < APP_START_ADDRESS then
          GBoot_SendNack
        else
          HAL_FLASH_Unlock
          let status ← writeLoop addr 0
          HAL_FLASH_Lock
          if status = 0 then
            GBoot_SendAck
          else
            GBoot_SendNack
    else if cmd = CMD_RESET_DEV then
      GBoot_SendAck
      NVIC_SystemReset
    else if cmd = CMD_JUMP_APP then
      GBoot_SendAck
      GBoot_JumpToApp
    else
      GBoot_SendNack

def GBoot_Init : Exec Unit := do
  emit Event.pwrClkEnable
  emit Event.bkpClkEnable
  emit Event.enableBkUpAccess
  let dr1 ← bkpRead
  if dr1 ≠ GBOOT_MAGIC_KEY then
    GBoot_JumpToApp
  else
    pure ()
  bkpWrite 0
  emit (Event.receiveToIdle GBOOT_RX_BUF_SIZE)

/-- One pass through the body of the `while (1)` of `GBoot_Run`. -/
def GBoot_Run_body : Exec Unit := do
  let cmd_received ← getCmdReceived
  if cmd_received ≠ 0 then
    GBoot_ProcessCommand
    setCmdReceived 0
    emit (Event.receiveToIdle GBOOT_RX_BUF_SIZE)
  else
    pure ()

/-! ## Reading a run -/

/-- The address the WRITE_PAGE handler assembles from bytes 1..4 of the frame. -/
def frameAddr (rx : List Nat) : Nat :=
  0 ||| u32 (rx.getD 1 0 <<< 0) ||| u32 (rx.getD 2 0 <<< 8)
    ||| u32 (rx.getD 3 0 <<< 16) ||| u32 (rx.getD 4 0 <<< 24)

/-- The word the loop assembles at offset `i` of the page data. -/
def pageWord (rx : List Nat) (i : Nat) : Nat :=
  0 ||| u32 (rx.getD (5 + (i + 0)) 0 <<< 0) ||| u32 (rx.getD (5 + (i + 1)) 0 <<< 8)
    ||| u32 (rx.getD (5 + (i + 2)) 0 <<< 16) ||| u32 (rx.getD (5 + (i + 3)) 0 <<< 24)

/-- The events of one pass through the loop body at offset `i`. -/
def passEvents (rx : List Nat) (addr i : Nat) : List Event :=
  [Event.rxRead (5 + (i + 0)), Event.rxRead (5 + (i + 1)), Event.rxRead (5 + (i + 2)),
   Event.rxRead (5 + (i + 3)), Event.flashProgram (u32 (addr + i)) (pageWord rx i)]

/-- How many passes a loop with `n` passes to go makes, when the program calls
report `ok 0, ok 1, ...`: it stops after the first failure. -/
def loopPasses : (Nat → Bool) → Nat → Nat
  | _, 0 => 0
  | ok, n + 1 => if ok 0 then loopPasses (fun t => ok (t + 1)) n + 1 else 1

/-- The value of `status` such a loop ends with. -/
def loopStatus : (Nat → Bool) → Nat → Nat
  | _, 0 => 0
  | ok, n + 1 => if ok 0 then loopStatus (fun t => ok (t + 1)) n else 1

/-- Whether an event is a call into the hardware (anything but a buffer read). -/
def isCall : Event → Bool
  | Event.rxRead _ => false
  | _ => true

/-- Whether an event is one the page loop emits: a buffer read or a program call. -/
def isLoopEvent : Event → Bool
  | Event.rxRead _ => true
  | Event.flashProgram _ _ => true
  | _ => false

/-- The hardware calls of a run, in order. -/
def hwCalls (t : List Event) : List Event := t.filter isCall

/-- Whether an event is a status response: the transmit of the single byte ACK
or of the single byte NACK. -/
def isStatus : Event → Bool
  | Event.uartTransmit bs => bs = [GBOOT_ACK] || bs = [GBOOT_NACK]
  | _ => false

/-- The unlock/lock discipline of a run that starts with the controller locked
(`locked = true`) or unlocked: every erase and program call is made while the
controller is unlocked, and the run ends with the controller locked. -/
def wellBracketed (locked : Bool) : List Event → Bool
  | [] => locked
  | Event.flashUnlock :: t => wellBracketed false t
  | Event.flashLock :: t => wellBracketed true t
  | Event.flashErase _ _ :: t => !locked && wellBracketed locked t
  | Event.flashProgram _ _ :: t => !locked && wellBracketed locked t
  | _ :: t => wellBracketed locked t

/-- The machine after a send of `data` (clamped length `len`) went through. -/
def afterSend (m : Machine) (data : List Nat) (len : Nat) : Machine :=
  { m with
    this := { m.this with tx_buffer := memcpy m.this.tx_buffer data len }
    uart_ready := fun n => m.uart_ready (n + 1) }

/-- A run with the events `es` put in front of its own. -/
def Step.after {α : Type} (es : List Event) (r : Step α) : Step α :=
  { ctl := r.ctl, m := r.m, out := es ++ r.out }

/-- The machine the WRITE_PAGE loop is entered on: the controller unlocked. -/
def unlocked (m : Machine) : Machine := { m with flash_locked := false }

/-- The machine with the controller locked. -/
def locked (m : Machine) : Machine := { m with flash_locked := true }

/-! ## The claims' own words, and concrete machines -/

/-- The little-endian value of frame bytes 1..4, as the protocol defines the address. -/
def leAddr (rx : List Nat) : Nat :=
  rx.getD 1 0 + 2 ^ 8 * rx.getD 2 0 + 2 ^ 16 * rx.getD 3 0 + 2 ^ 24 * rx.getD 4 0

/-- The little-endian value of the four payload bytes at offset `i` of the page
data; the page data starts at frame byte 5. -/
def leWord (rx : List Nat) (i : Nat) : Nat :=
  rx.getD (5 + i) 0 + 2 ^ 8 * rx.getD (5 + (i + 1)) 0 + 2 ^ 16 * rx.getD (5 + (i + 2)) 0
    + 2 ^ 24 * rx.getD (5 + (i + 3)) 0

/-- The content of a byte array: every element is below 256. -/
def IsBytes (l : List Nat) : Prop := ∀ b ∈ l, b < 256

/-- A machine that has just received the frame `bytes` (the rest of the receive
buffer is zero), with the controller locked, erased flash, and hardware whose
calls all succeed and whose transmit path always gets idle. -/
def received (bytes : List Nat) : Machine :=
  { this :=
      { rx_buffer := bytes ++ List.replicate (GBOOT_RX_BUF_SIZE - bytes.length) 0
        tx_buffer := List.replicate GBOOT_TX_BUF_SIZE 0
        cmd_received := 1
        rx_len := bytes.length
        is_busy := 0 }
    bkp_dr1 := 0
    flash_locked := true
    mem := fun _ => 0xFF
    uart_ready := fun _ => true
    erase_ok := fun _ => true
    program_ok := fun _ => true }

/-- A full WRITE_PAGE frame: opcode, four address bytes, a page filled with `fill`. -/
def pageFrame (a1 a2 a3 a4 fill : Nat) : List Nat :=
  [CMD_WRITE_PAGE, a1, a2, a3, a4] ++ List.replicate FLASH_PAGE_SIZE fill

/-- The machine `received bytes`, except that the program calls succeed `k`
times and fail from then on. -/
def receivedFailing (bytes : List Nat) (k : Nat) : Machine :=
  { received bytes with program_ok := fun n => decide (n < k) }

/-- Whether an event arms reception. -/
def isArm : Event → Bool
  | Event.receiveToIdle _ => true
  | _ => false

/-- Whether an event is a write of the trigger register `BKP->DR1`. -/
def isBkpWrite : Event → Bool
  | Event.bkpWrite _ => true
  | _ => false

/-- Whether an event is a read of the trigger register `BKP->DR1`. -/
def isBkpRead : Event → Bool
  | Event.bkpRead => true
  | _ => false

/-- The events of the teardown and hand-over of `GBoot_JumpToApp`, for the
stack pointer `sp` stored at the region start and the reset handler `entry`
stored right after it; the three `wordRead` events are the loads of these two
words that the code makes. -/
def transferEvents (sp entry : Nat) : List Event :=
  [Event.wordRead APP_START_ADDRESS, Event.wordRead (APP_START_ADDRESS + 4),
   Event.uartDeInit, Event.dmaDeInitRx, Event.dmaDeInitTx, Event.rccDeInit, Event.halDeInit,
   Event.sysTickCtrl 0, Event.sysTickLoad 0, Event.sysTickVal 0,
   Event.wordRead APP_START_ADDRESS, Event.setMSP sp, Event.branch entry]

/-- The machine `m` with the words `sp` and `entry` stored at the region start
and right after it. -/
def withApp (m : Machine) (sp entry : Nat) : Machine :=
  { m with
    mem := programMem (programMem m.mem APP_START_ADDRESS sp) (APP_START_ADDRESS + 4) entry }

/-- The machine `m` with the trigger register holding `v`. -/
def withTrigger (m : Machine) (v : Nat) : Machine := { m with bkp_dr1 := v }

/-- Whether an event is a load of a word from memory. -/
def isLoad : Event → Bool
  | Event.wordRead _ => true
  | _ => false

/-- Whether an event is a transmit on the UART. -/
def isTransmit : Event → Bool
  | Event.uartTransmit _ => true
  | _ => false

/-- A machine whose instance has just been set up by `GBoot_Create`: no frame
is waiting. -/
def created : Machine := { received [] with this := GBoot_Create (received []).this }

/-- The machine `m` with the content `rx` in its receive buffer. -/
def withRx (m : Machine) (rx : List Nat) : Machine :=
  { m with this := { m.this with rx_buffer := rx } }

/-- The run `r`, ending on a machine whose receive buffer holds `rx`. -/
def Step.withRx {α : Type} (r : Step α) (rx : List Nat) : Step α :=
  { ctl := r.ctl, m := GBoot.withRx r.m rx, out := r.out }

/-- The stack-pointer check that `GBoot_JumpToApp` makes on the word `w` stored
at the region start. -/
def spCheck (w : Nat) : Bool := decide (w &&& 0x2FFE0000 = 0x20000000)

/-- The bases of the eight address windows, each 128 KiB long, that the check lets pass. -/
def spWindows : List Nat :=
  [0x20000000, 0x30000000, 0x60000000, 0x70000000, 0xA0000000, 0xB0000000, 0xE0000000,
   0xF0000000]

/-! ## Lemmas on the primitives -/

theorem u32_shift_bytes (b0 b1 b2 b3 : Nat) (h0 : b0 < 256) (h1 : b1 < 256) (h2 : b2 < 256)
    (h3 : b3 < 256) :
    0 ||| u32 (b0 <<< 0) ||| u32 (b1 <<< 8) ||| u32 (b2 <<< 16) ||| u32 (b3 <<< 24)
      = b0 + 2 ^ 8 * b1 + 2 ^ 16 * b2 + 2 ^ 24 * b3 := by
  have e0 : u32 (b0 <<< 0) = b0 := by
    simp only [u32, Nat.shiftLeft_eq]; omega
  have e1 : u32 (b1 <<< 8) = 2 ^ 8 * b1 := by
    simp only [u32, Nat.shiftLeft_eq]; omega
  have e2 : u32 (b2 <<< 16) = 2 ^ 16 * b2 := by
    simp only [u32, Nat.shiftLeft_eq]; omega
  have e3 : u32 (b3 <<< 24) = 2 ^ 24 * b3 := by
    simp only [u32, Nat.shiftLeft_eq]; omega
  rw [e0, e1, e2, e3, Nat.zero_or]
  have s1 : b0 ||| 2 ^ 8 * b1 = 2 ^ 8 * b1 + b0 := by
    rw [Nat.or_comm]; exact (Nat.mul_add_lt_is_or (by omega) b1).symm
  have s2 : (2 ^ 8 * b1 + b0) ||| 2 ^ 16 * b2 = 2 ^ 16 * b2 + (2 ^ 8 * b1 + b0) := by
    rw [Nat.or_comm]; exact (Nat.mul_add_lt_is_or (by omega) b2).symm
  have s3 : (2 ^ 16 * b2 + (2 ^ 8 * b1 + b0)) ||| 2 ^ 24 * b3
      = 2 ^ 24 * b3 + (2 ^ 16 * b2 + (2 ^ 8 * b1 + b0)) := by
    rw [Nat.or_comm]; exact (Nat.mul_add_lt_is_or (by omega) b3).symm
  rw [s1, s2, s3]; omega

theorem getD_lt_of_bytes (rx : List Nat) (h : ∀ b ∈ rx, b < 256) (i : Nat) :
    rx.getD i 0 < 256 := by
  rw [List.getD_eq_getElem?_getD]
  cases hi : rx[i]? with
  | none => simp
  | some b => simpa using h b (List.getElem?_mem hi)

/-! ## Lemmas on sending -/

theorem bind_run {α β : Type} (x : Exec α) (f : α → Exec β) (m : Machine) :
    (x >>= f) m = Exec.bind x f m := rfl

theorem SendResponse_ready (data : List Nat) (len : Nat) (m : Machine)
    (h : m.uart_ready 0 = true) :
    GBoot_SendResponse data len m =
      { ctl := Ctl.ret (),
        m := afterSend m data (if len > GBOOT_TX_BUF_SIZE then GBOOT_TX_BUF_SIZE else len),
        out := [Event.uartTransmit
          ((memcpy m.this.tx_buffer data
            (if len > GBOOT_TX_BUF_SIZE then GBOOT_TX_BUF_SIZE else len)).take
            (if len > GBOOT_TX_BUF_SIZE then GBOOT_TX_BUF_SIZE else len))] } := by
  simp [GBoot_SendResponse, bind, Exec.bind, waitUartReady, h, copyToTx, HAL_UART_Transmit_DMA,
    afterSend]

theorem SendResponse_blocked (data : List Nat) (len : Nat) (m : Machine)
    (h : m.uart_ready 0 = false) :
    GBoot_SendResponse data len m = { ctl := Ctl.stop Halt.blocked, m := m, out := [] } := by
  simp [GBoot_SendResponse, bind, Exec.bind, waitUartReady, h]

theorem SendAck_ready (m : Machine) (h : m.uart_ready 0 = true) :
    GBoot_SendAck m =
      { ctl := Ctl.ret (), m := afterSend m [GBOOT_ACK] 1, out := [Event.uartTransmit [GBOOT_ACK]] } := by
  rw [GBoot_SendAck, SendResponse_ready _ _ _ h]
  simp [GBOOT_TX_BUF_SIZE, memcpy, List.range_succ]

theorem SendNack_ready (m : Machine) (h : m.uart_ready 0 = true) :
    GBoot_SendNack m =
      { ctl := Ctl.ret (), m := afterSend m [GBOOT_NACK] 1, out := [Event.uartTransmit [GBOOT_NACK]] } := by
  rw [GBoot_SendNack, SendResponse_ready _ _ _ h]
  simp [GBOOT_TX_BUF_SIZE, memcpy, List.range_succ]

theorem SendAck_blocked (m : Machine) (h : m.uart_ready 0 = false) :
    GBoot_SendAck m = { ctl := Ctl.stop Halt.blocked, m := m, out := [] } := by
  rw [GBoot_SendAck, SendResponse_blocked _ _ _ h]

theorem SendNack_blocked (m : Machine) (h : m.uart_ready 0 = false) :
    GBoot_SendNack m = { ctl := Ctl.stop Halt.blocked, m := m, out := [] } := by
  rw [GBoot_SendNack, SendResponse_blocked _ _ _ h]

/-! ## Lemmas on the page loop -/

theorem writeLoop_done (addr i : Nat) (m : Machine) (h : ¬ i < FLASH_PAGE_SIZE) :
    writeLoop addr i m = { ctl := Ctl.ret 0, m := m, out := [] } := by
  rw [writeLoop]
  simp only [h, dite_false]
  rfl

theorem writeLoop_fail (addr i : Nat) (m : Machine) (h : i < FLASH_PAGE_SIZE)
    (hf : m.program_ok 0 = false) :
    writeLoop addr i m =
      { ctl := Ctl.ret 1,
        m := (HAL_FLASH_Program (u32 (addr + i)) (pageWord m.this.rx_buffer i) m).m,
        out := passEvents m.this.rx_buffer addr i } := by
  rw [writeLoop]
  simp only [h, dite_true]
  simp [bind, Exec.bind, rxRead, HAL_FLASH_Program, hf, HAL_OK, HAL_ERROR, pure, Exec.pure,
    passEvents, pageWord, -List.getD_eq_getElem?_getD]

theorem writeLoop_step (addr i : Nat) (m : Machine) (h : i < FLASH_PAGE_SIZE)
    (hf : m.program_ok 0 = true) :
    writeLoop addr i m =
      { ctl := (writeLoop addr (i + 4)
          (HAL_FLASH_Program (u32 (addr + i)) (pageWord m.this.rx_buffer i) m).m).ctl,
        m := (writeLoop addr (i + 4)
          (HAL_FLASH_Program (u32 (addr + i)) (pageWord m.this.rx_buffer i) m).m).m,
        out := passEvents m.this.rx_buffer addr i ++ (writeLoop addr (i + 4)
          (HAL_FLASH_Program (u32 (addr + i)) (pageWord m.this.rx_buffer i) m).m).out } := by
  conv => lhs; rw [writeLoop]
  simp only [h, dite_true]
  simp [bind, Exec.bind, rxRead, HAL_FLASH_Program, hf, HAL_OK, HAL_ERROR, pure, Exec.pure,
    passEvents, pageWord, -List.getD_eq_getElem?_getD]

/-- The loop entered at word `j` with `n` words to go: it returns, with the
status and after the number of passes that the outcomes of the program calls
dictate, and it touches nothing but memory and the stream of program outcomes. -/
theorem writeLoop_run (addr : Nat) : ∀ (n j : Nat) (m : Machine), j + n = 256 →
    (writeLoop addr (4 * j) m).ctl = Ctl.ret (loopStatus m.program_ok n) ∧
    (writeLoop addr (4 * j) m).out =
      (List.range (loopPasses m.program_ok n)).flatMap
        (fun t => passEvents m.this.rx_buffer addr (4 * (j + t))) ∧
    (writeLoop addr (4 * j) m).m.this = m.this ∧
    (writeLoop addr (4 * j) m).m.flash_locked = m.flash_locked ∧
    (writeLoop addr (4 * j) m).m.uart_ready = m.uart_ready ∧
    (writeLoop addr (4 * j) m).m.erase_ok = m.erase_ok ∧
    (writeLoop addr (4 * j) m).m.bkp_dr1 = m.bkp_dr1 := by
  intro n
  induction n with
  | zero =>
    intro j m hj
    have h : ¬ 4 * j < FLASH_PAGE_SIZE := by simp only [FLASH_PAGE_SIZE]; omega
    rw [writeLoop_done addr _ m h]
    simp [loopStatus, loopPasses]
  | succ n ih =>
    intro j m hj
    have h : 4 * j < FLASH_PAGE_SIZE := by simp only [FLASH_PAGE_SIZE]; omega
    cases hf : m.program_ok 0 with
    | false =>
      rw [writeLoop_fail addr _ m h hf]
      simp [loopStatus, loopPasses, hf, HAL_FLASH_Program, List.range_succ]
    | true =>
      rw [writeLoop_step addr _ m h hf]
      have e4 : 4 * j + 4 = 4 * (j + 1) := by omega
      rw [e4]
      obtain ⟨i1, i2, i3, i4, i5, i6, i7⟩ :=
        ih (j + 1) (HAL_FLASH_Program (u32 (addr + 4 * j)) (pageWord m.this.rx_buffer (4 * j)) m).m
          (by omega)
      refine ⟨?_, ?_, ?_, ?_, ?_, ?_, ?_⟩
      · rw [i1]; simp [loopStatus, hf, HAL_FLASH_Program]
      · simp only [i2]
        simp only [loopPasses, hf, if_true, HAL_FLASH_Program]
        rw [List.range_succ_eq_map, List.flatMap_cons, List.flatMap_map]
        simp only [Nat.add_zero]
        congr 1
        apply congrArg
        funext t
        simp only [Function.comp, Nat.succ_eq_add_one]
        congr 2
        omega
      · rw [i3]; simp [HAL_FLASH_Program]
      · rw [i4]; simp [HAL_FLASH_Program]
      · rw [i5]; simp [HAL_FLASH_Program]
      · rw [i6]; simp [HAL_FLASH_Program]
      · rw [i7]; simp [HAL_FLASH_Program]

theorem loopPasses_le (n : Nat) : ∀ ok : Nat → Bool, loopPasses ok n ≤ n := by
  induction n with
  | zero => intro ok; simp [loopPasses]
  | succ n ih =>
    intro ok
    simp only [loopPasses]
    split
    · have := ih (fun t => ok (t + 1)); omega
    · omega

theorem loopStatus_le_one (n : Nat) : ∀ ok : Nat → Bool,
    loopStatus ok n = 0 ∨ loopStatus ok n = 1 := by
  induction n with
  | zero => intro ok; simp [loopStatus]
  | succ n ih =>
    intro ok
    simp only [loopStatus]
    split
    · exact ih _
    · exact Or.inr rfl

theorem loop_all_ok (n : Nat) : ∀ ok : Nat → Bool, (∀ t, t < n → ok t = true) →
    loopPasses ok n = n ∧ loopStatus ok n = 0 := by
  induction n with
  | zero => intro ok _; simp [loopPasses, loopStatus]
  | succ n ih =>
    intro ok h
    have h0 : ok 0 = true := h 0 (by omega)
    have := ih (fun t => ok (t + 1)) (fun t ht => h (t + 1) (by omega))
    simp [loopPasses, loopStatus, h0, this]

theorem loop_first_fail (k : Nat) : ∀ (n : Nat) (ok : Nat → Bool), k < n →
    (∀ t, t < k → ok t = true) → ok k = false →
    loopPasses ok n = k + 1 ∧ loopStatus ok n = 1 := by
  induction k with
  | zero =>
    intro n ok hk _ hf
    cases n with
    | zero => omega
    | succ n => simp [loopPasses, loopStatus, hf]
  | succ k ih =>
    intro n ok hk h hf
    cases n with
    | zero => omega
    | succ n =>
      have h0 : ok 0 = true := h 0 (by omega)
      have := ih n (fun t => ok (t + 1)) (by omega) (fun t ht => h (t + 1) (by omega)) hf
      simp [loopPasses, loopStatus, h0, this]

/-! ## The dispatcher, branch by branch -/

theorem ProcessCommand_empty (m : Machine) (h : m.this.rx_len < 1) :
    GBoot_ProcessCommand m = { ctl := Ctl.ret (), m := m, out := [] } := by
  simp [GBoot_ProcessCommand, bind, Exec.bind, getRxLen, h, pure, Exec.pure]

theorem ProcessCommand_info (m : Machine) (h : 1 ≤ m.this.rx_len)
    (hc : m.this.rx_buffer.getD 0 0 = CMD_GET_INFO) :
    GBoot_ProcessCommand m =
      Step.after [Event.rxRead 0] ((GBoot_SendAck >>= fun _ => GBoot_SendResponse [0x01, 0x02] 2) m) := by
  have hl : ¬ m.this.rx_len < 1 := by omega
  simp [GBoot_ProcessCommand, bind, Exec.bind, getRxLen, rxRead, hl, hc, Step.after,
    -List.getD_eq_getElem?_getD]

theorem ProcessCommand_other (m : Machine) (h : 1 ≤ m.this.rx_len)
    (h1 : m.this.rx_buffer.getD 0 0 ≠ CMD_GET_INFO) (h2 : m.this.rx_buffer.getD 0 0 ≠ CMD_ERASE_APP)
    (h3 : m.this.rx_buffer.getD 0 0 ≠ CMD_WRITE_PAGE) (h4 : m.this.rx_buffer.getD 0 0 ≠ CMD_RESET_DEV)
    (h5 : m.this.rx_buffer.getD 0 0 ≠ CMD_JUMP_APP) :
    GBoot_ProcessCommand m = Step.after [Event.rxRead 0] (GBoot_SendNack m) := by
  have hl : ¬ m.this.rx_len < 1 := by omega
  simp [GBoot_ProcessCommand, bind, Exec.bind, getRxLen, rxRead, hl, h1, h2, h3, h4, h5, Step.after,
    -List.getD_eq_getElem?_getD]

theorem ProcessCommand_reset (m : Machine) (h : 1 ≤ m.this.rx_len)
    (hc : m.this.rx_buffer.getD 0 0 = CMD_RESET_DEV) :
    GBoot_ProcessCommand m =
      Step.after [Event.rxRead 0] ((GBoot_SendAck >>= fun _ => NVIC_SystemReset) m) := by
  have hl : ¬ m.this.rx_len < 1 := by omega
  simp [GBoot_ProcessCommand, bind, Exec.bind, getRxLen, rxRead, hl, hc, Step.after,
    CMD_GET_INFO, CMD_ERASE_APP, CMD_WRITE_PAGE, CMD_RESET_DEV, -List.getD_eq_getElem?_getD]

theorem ProcessCommand_jump (m : Machine) (h : 1 ≤ m.this.rx_len)
    (hc : m.this.rx_buffer.getD 0 0 = CMD_JUMP_APP) :
    GBoot_ProcessCommand m =
      Step.after [Event.rxRead 0] ((GBoot_SendAck >>= fun _ => GBoot_JumpToApp) m) := by
  have hl : ¬ m.this.rx_len < 1 := by omega
  simp [GBoot_ProcessCommand, bind, Exec.bind, getRxLen, rxRead, hl, hc, Step.after,
    CMD_GET_INFO, CMD_ERASE_APP, CMD_WRITE_PAGE, CMD_RESET_DEV, CMD_JUMP_APP,
    -List.getD_eq_getElem?_getD]

theorem ProcessCommand_erase (m : Machine) (h : 1 ≤ m.this.rx_len)
    (hc : m.this.rx_buffer.getD 0 0 = CMD_ERASE_APP) :
    GBoot_ProcessCommand m =
      Step.after [Event.rxRead 0, Event.flashUnlock, Event.flashErase APP_START_ADDRESS 48]
        (((if m.erase_ok 0 = true then GBoot_SendAck else GBoot_SendNack)
            >>= fun _ => HAL_FLASH_Lock)
          (HAL_FLASHEx_Erase APP_START_ADDRESS 48 (unlocked m)).m) := by
  have hl : ¬ m.this.rx_len < 1 := by omega
  cases he : m.erase_ok 0 <;>
  simp [GBoot_ProcessCommand, bind, Exec.bind, getRxLen, rxRead, hl, hc, Step.after,
    CMD_GET_INFO, CMD_ERASE_APP, HAL_FLASH_Unlock, HAL_FLASHEx_Erase, he, HAL_OK, HAL_ERROR,
    unlocked, -List.getD_eq_getElem?_getD]

theorem ProcessCommand_write_short (m : Machine) (h : 1 ≤ m.this.rx_len)
    (hc : m.this.rx_buffer.getD 0 0 = CMD_WRITE_PAGE)
    (hs : m.this.rx_len < FLASH_PAGE_SIZE + 5) :
    GBoot_ProcessCommand m = Step.after [Event.rxRead 0] (GBoot_SendNack m) := by
  have hl : ¬ m.this.rx_len < 1 := by omega
  simp [GBoot_ProcessCommand, bind, Exec.bind, getRxLen, rxRead, hl, hc, hs, Step.after,
    CMD_GET_INFO, CMD_ERASE_APP, CMD_WRITE_PAGE, -List.getD_eq_getElem?_getD]

theorem ProcessCommand_write_low (m : Machine)
    (hc : m.this.rx_buffer.getD 0 0 = CMD_WRITE_PAGE)
    (hs : FLASH_PAGE_SIZE + 5 ≤ m.this.rx_len)
    (ha : frameAddr m.this.rx_buffer < APP_START_ADDRESS) :
    GBoot_ProcessCommand m =
      Step.after [Event.rxRead 0, Event.rxRead 1, Event.rxRead 2, Event.rxRead 3, Event.rxRead 4]
        (GBoot_SendNack m) := by
  have hl : ¬ m.this.rx_len < 1 := by simp only [FLASH_PAGE_SIZE] at hs; omega
  have hs2 : ¬ m.this.rx_len < FLASH_PAGE_SIZE + 5 := by omega
  simp [frameAddr, -List.getD_eq_getElem?_getD] at ha
  simp [GBoot_ProcessCommand, bind, Exec.bind, getRxLen, rxRead, hl, hc, hs2, ha, Step.after,
    CMD_GET_INFO, CMD_ERASE_APP, CMD_WRITE_PAGE, -List.getD_eq_getElem?_getD]

theorem ProcessCommand_write_run (m : Machine)
    (hc : m.this.rx_buffer.getD 0 0 = CMD_WRITE_PAGE)
    (hs : FLASH_PAGE_SIZE + 5 ≤ m.this.rx_len)
    (ha : APP_START_ADDRESS ≤ frameAddr m.this.rx_buffer) :
    GBoot_ProcessCommand m =
      Step.after
        ([Event.rxRead 0, Event.rxRead 1, Event.rxRead 2, Event.rxRead 3, Event.rxRead 4,
            Event.flashUnlock]
          ++ (writeLoop (frameAddr m.this.rx_buffer) 0 (unlocked m)).out ++ [Event.flashLock])
        ((if loopStatus m.program_ok 256 = 0 then GBoot_SendAck else GBoot_SendNack)
          (locked (writeLoop (frameAddr m.this.rx_buffer) 0 (unlocked m)).m)) := by
  have hl : ¬ m.this.rx_len < 1 := by simp only [FLASH_PAGE_SIZE] at hs; omega
  have hs2 : ¬ m.this.rx_len < FLASH_PAGE_SIZE + 5 := by omega
  have ha2 : ¬ frameAddr m.this.rx_buffer < APP_START_ADDRESS := by omega
  obtain ⟨r1, -⟩ := writeLoop_run (frameAddr m.this.rx_buffer) 256 0 (unlocked m) (by omega)
  simp only [Nat.mul_zero] at r1
  have r1' : (writeLoop (frameAddr m.this.rx_buffer) 0 (unlocked m)).ctl
      = Ctl.ret (loopStatus m.program_ok 256) := by rw [r1]; rfl
  simp [frameAddr, unlocked, -List.getD_eq_getElem?_getD] at ha2 r1'
  have ha3 := Nat.not_lt.mpr ha2
  simp [GBoot_ProcessCommand, bind, Exec.bind, getRxLen, rxRead, hl, hc, hs2, ha3, Step.after,
    CMD_GET_INFO, CMD_ERASE_APP, CMD_WRITE_PAGE, HAL_FLASH_Unlock, HAL_FLASH_Lock, r1',
    frameAddr, unlocked, locked, -List.getD_eq_getElem?_getD]

/-! ## Sends and the boot transfer in closed form -/

theorem SendAck_eq (m : Machine) :
    GBoot_SendAck m =
      if m.uart_ready 0 = true then
        { ctl := Ctl.ret (), m := afterSend m [GBOOT_ACK] 1, out := [Event.uartTransmit [GBOOT_ACK]] }
      else { ctl := Ctl.stop Halt.blocked, m := m, out := [] } := by
  cases h : m.uart_ready 0
  · simp [SendAck_blocked m h]
  · simp [SendAck_ready m h]

theorem SendNack_eq (m : Machine) :
    GBoot_SendNack m =
      if m.uart_ready 0 = true then
        { ctl := Ctl.ret (), m := afterSend m [GBOOT_NACK] 1, out := [Event.uartTransmit [GBOOT_NACK]] }
      else { ctl := Ctl.stop Halt.blocked, m := m, out := [] } := by
  cases h : m.uart_ready 0
  · simp [SendNack_blocked m h]
  · simp [SendNack_ready m h]

theorem SendVersion_eq (m : Machine) :
    GBoot_SendResponse [0x01, 0x02] 2 m =
      if m.uart_ready 0 = true then
        { ctl := Ctl.ret (), m := afterSend m [0x01, 0x02] 2, out := [Event.uartTransmit [0x01, 0x02]] }
      else { ctl := Ctl.stop Halt.blocked, m := m, out := [] } := by
  cases h : m.uart_ready 0
  · simp [SendResponse_blocked _ _ m h]
  · rw [SendResponse_ready _ _ m h]
    simp [GBOOT_TX_BUF_SIZE, memcpy, List.range_succ]

theorem JumpToApp_eq (m : Machine) :
    GBoot_JumpToApp m =
      if memWord m.mem APP_START_ADDRESS &&& 0x2FFE0000 = 0x20000000 then
        { ctl := Ctl.stop Halt.jumped, m := m,
          out := [Event.wordRead APP_START_ADDRESS, Event.wordRead (APP_START_ADDRESS + 4),
            Event.uartDeInit, Event.dmaDeInitRx, Event.dmaDeInitTx, Event.rccDeInit,
            Event.halDeInit, Event.sysTickCtrl 0, Event.sysTickLoad 0, Event.sysTickVal 0,
            Event.wordRead APP_START_ADDRESS, Event.setMSP (memWord m.mem APP_START_ADDRESS),
            Event.branch (memWord m.mem (APP_START_ADDRESS + 4))] }
      else { ctl := Ctl.ret (), m := m, out := [Event.wordRead APP_START_ADDRESS] } := by
  by_cases h : memWord m.mem APP_START_ADDRESS &&& 0x2FFE0000 = 0x20000000
  · simp [GBoot_JumpToApp, bind, Exec.bind, wordRead, h, emit, JumpToApplication]
  · simp [GBoot_JumpToApp, bind, Exec.bind, wordRead, h, pure, Exec.pure]

theorem frameAddr_eq_leAddr (rx : List Nat) (h : IsBytes rx) : frameAddr rx = leAddr rx := by
  simp only [frameAddr, leAddr]
  exact u32_shift_bytes _ _ _ _ (getD_lt_of_bytes rx h 1) (getD_lt_of_bytes rx h 2)
    (getD_lt_of_bytes rx h 3) (getD_lt_of_bytes rx h 4)

theorem pageWord_eq_leWord (rx : List Nat) (h : IsBytes rx) (i : Nat) :
    pageWord rx i = leWord rx i := by
  simp only [pageWord, leWord, Nat.add_zero]
  exact u32_shift_bytes _ _ _ _ (getD_lt_of_bytes rx h _) (getD_lt_of_bytes rx h _)
    (getD_lt_of_bytes rx h _) (getD_lt_of_bytes rx h _)

theorem isBytes_received (bytes : List Nat) (h : ∀ b ∈ bytes, b < 256) :
    IsBytes (received bytes).this.rx_buffer := by
  intro b hb
  simp only [received, List.mem_append, List.mem_replicate] at hb
  rcases hb with hb | ⟨-, hb⟩
  · exact h b hb
  · omega

theorem isBytes_pageFrame (a1 a2 a3 a4 fill : Nat) (h1 : a1 < 256) (h2 : a2 < 256)
    (h3 : a3 < 256) (h4 : a4 < 256) (hf : fill < 256) :
    ∀ b ∈ pageFrame a1 a2 a3 a4 fill, b < 256 := by
  intro b hb
  simp only [pageFrame, CMD_WRITE_PAGE, List.mem_append, List.mem_cons, List.mem_replicate,
    List.mem_nil_iff, or_false] at hb
  rcases hb with (hb | hb | hb | hb | hb) | ⟨-, hb⟩ <;> omega

theorem rx_len_pageFrame (a1 a2 a3 a4 fill : Nat) :
    (received (pageFrame a1 a2 a3 a4 fill)).this.rx_len = 1 + 4 + FLASH_PAGE_SIZE := by
  simp only [received, pageFrame, List.length_append, List.length_cons, List.length_nil,
    List.length_replicate]

/-! ## The WRITE_PAGE run as a whole -/

theorem hwCalls_passes (rx : List Nat) (addr : Nat) (l : List Nat) (g : Nat → Nat) :
    hwCalls (l.flatMap (fun t => passEvents rx addr (g t)))
      = l.map (fun t => Event.flashProgram (u32 (addr + g t)) (pageWord rx (g t))) := by
  induction l with
  | nil => rfl
  | cons a l ih =>
    simp only [List.flatMap_cons, List.map_cons]
    simp only [hwCalls] at ih ⊢
    rw [List.filter_append, ih]
    simp [passEvents, isCall]

/-- The hardware calls of a full-length WRITE_PAGE run at an address at or
above the region start: unlock, one program call per pass of the loop, lock,
and then the status byte. -/
theorem write_run_calls (m : Machine)
    (hcmd : m.this.rx_buffer.getD 0 0 = CMD_WRITE_PAGE)
    (hlen : FLASH_PAGE_SIZE + 5 ≤ m.this.rx_len)
    (haddr : APP_START_ADDRESS ≤ frameAddr m.this.rx_buffer)
    (hready : m.uart_ready 0 = true) :
    hwCalls (GBoot_ProcessCommand m).out
      = Event.flashUnlock ::
          ((List.range (loopPasses m.program_ok 256)).map
              (fun t => Event.flashProgram (u32 (frameAddr m.this.rx_buffer + 4 * t))
                (pageWord m.this.rx_buffer (4 * t)))
            ++ [Event.flashLock,
                Event.uartTransmit [if loopStatus m.program_ok 256 = 0 then GBOOT_ACK else GBOOT_NACK]]) ∧
    (GBoot_ProcessCommand m).returned = true ∧
    (GBoot_ProcessCommand m).m.flash_locked = true := by
  obtain ⟨-, r2, -, -, r5, -, -⟩ :=
    writeLoop_run (frameAddr m.this.rx_buffer) 256 0 (unlocked m) (by omega)
  simp only [Nat.mul_zero, Nat.zero_add] at r2 r5
  have hr : (locked (writeLoop (frameAddr m.this.rx_buffer) 0 (unlocked m)).m).uart_ready 0 = true := by
    show (writeLoop (frameAddr m.this.rx_buffer) 0 (unlocked m)).m.uart_ready 0 = true
    rw [r5]; exact hready
  rw [ProcessCommand_write_run m hcmd hlen haddr, r2]
  have hp := hwCalls_passes (unlocked m).this.rx_buffer (frameAddr m.this.rx_buffer)
    (List.range (loopPasses (unlocked m).program_ok 256)) (fun t => 4 * t)
  simp only [hwCalls] at hp ⊢
  by_cases hs : loopStatus m.program_ok 256 = 0
  · simp only [hs, if_true, SendAck_eq, hr, Step.after, List.filter_append, hp]
    simp [isCall, Step.returned, afterSend, locked, unlocked]
  · simp only [hs, if_false, SendNack_eq, hr, Step.after, List.filter_append, hp, if_true]
    simp [isCall, Step.returned, afterSend, locked, unlocked]

theorem getElem?_calls (f : Nat → Event) (n : Nat) (rest : List Event) (i : Nat) (hi : i < n) :
    (Event.flashUnlock :: ((List.range n).map f ++ rest))[i + 1]? = some (f i) := by
  rw [List.getElem?_cons_succ, List.getElem?_append_left (by simpa using hi)]
  simp [hi]

/-! ## Facts that hold for every frame and every outcome of the hardware -/

theorem writeLoop_out_mem (addr : Nat) (m : Machine) (e : Event)
    (he : e ∈ (writeLoop addr 0 m).out) :
    (∃ i, e = Event.rxRead i) ∨
    ∃ t, t < 256 ∧ e = Event.flashProgram (u32 (addr + 4 * t)) (pageWord m.this.rx_buffer (4 * t)) := by
  obtain ⟨-, r2, -⟩ := writeLoop_run addr 256 0 m (by omega)
  simp only [Nat.mul_zero, Nat.zero_add] at r2
  rw [r2, List.mem_flatMap] at he
  obtain ⟨t, ht, hmem⟩ := he
  have ht' : t < 256 := Nat.lt_of_lt_of_le (List.mem_range.mp ht) (loopPasses_le 256 _)
  simp only [passEvents, List.mem_cons, List.mem_nil_iff, or_false] at hmem
  rcases hmem with h | h | h | h | h
  · exact Or.inl ⟨_, h⟩
  · exact Or.inl ⟨_, h⟩
  · exact Or.inl ⟨_, h⟩
  · exact Or.inl ⟨_, h⟩
  · exact Or.inr ⟨t, ht', h⟩

theorem writeLoop_out_loopEvents (addr : Nat) (m : Machine) :
    ∀ e ∈ (writeLoop addr 0 m).out, isLoopEvent e = true := by
  intro e he
  rcases writeLoop_out_mem addr m e he with ⟨i, rfl⟩ | ⟨t, -, rfl⟩ <;> rfl

theorem countP_isStatus_loopEvents (l : List Event) (h : ∀ e ∈ l, isLoopEvent e = true) :
    l.countP isStatus = 0 := by
  rw [List.countP_eq_zero]
  intro e he
  have := h e he
  cases e <;> simp_all [isLoopEvent, isStatus]

theorem wellBracketed_loopEvents (l rest : List Event) (h : ∀ e ∈ l, isLoopEvent e = true) :
    wellBracketed false (l ++ rest) = wellBracketed false rest := by
  induction l with
  | nil => rfl
  | cons e l ih =>
    have he := h e (List.mem_cons_self _ _)
    have ih' := ih (fun x hx => h x (List.mem_cons_of_mem _ hx))
    cases e <;> simp_all [isLoopEvent, wellBracketed]

/-- The machine the status byte of a WRITE_PAGE run is sent from: its stream of
transmit outcomes is the one the run started with, and its controller is locked. -/
theorem write_run_send_machine (addr : Nat) (m : Machine) :
    (locked (writeLoop addr 0 (unlocked m)).m).uart_ready = m.uart_ready ∧
    (locked (writeLoop addr 0 (unlocked m)).m).flash_locked = true := by
  obtain ⟨-, -, -, -, r5, -, -⟩ := writeLoop_run addr 256 0 (unlocked m) (by omega)
  simp only [Nat.mul_zero] at r5
  exact ⟨r5, rfl⟩

/-- Every machine falls under exactly one branch of the dispatcher. -/
theorem frame_cases (m : Machine) :
    m.this.rx_len < 1 ∨
    (1 ≤ m.this.rx_len ∧ m.this.rx_buffer.getD 0 0 = CMD_GET_INFO) ∨
    (1 ≤ m.this.rx_len ∧ m.this.rx_buffer.getD 0 0 = CMD_ERASE_APP) ∨
    (1 ≤ m.this.rx_len ∧ m.this.rx_buffer.getD 0 0 = CMD_WRITE_PAGE
      ∧ m.this.rx_len < FLASH_PAGE_SIZE + 5) ∨
    (m.this.rx_buffer.getD 0 0 = CMD_WRITE_PAGE ∧ FLASH_PAGE_SIZE + 5 ≤ m.this.rx_len
      ∧ frameAddr m.this.rx_buffer < APP_START_ADDRESS) ∨
    (m.this.rx_buffer.getD 0 0 = CMD_WRITE_PAGE ∧ FLASH_PAGE_SIZE + 5 ≤ m.this.rx_len
      ∧ APP_START_ADDRESS ≤ frameAddr m.this.rx_buffer) ∨
    (1 ≤ m.this.rx_len ∧ m.this.rx_buffer.getD 0 0 = CMD_RESET_DEV) ∨
    (1 ≤ m.this.rx_len ∧ m.this.rx_buffer.getD 0 0 = CMD_JUMP_APP) ∨
    (1 ≤ m.this.rx_len ∧ m.this.rx_buffer.getD 0 0 ≠ CMD_GET_INFO
      ∧ m.this.rx_buffer.getD 0 0 ≠ CMD_ERASE_APP ∧ m.this.rx_buffer.getD 0 0 ≠ CMD_WRITE_PAGE
      ∧ m.this.rx_buffer.getD 0 0 ≠ CMD_RESET_DEV ∧ m.this.rx_buffer.getD 0 0 ≠ CMD_JUMP_APP) := by
  by_cases h0 : m.this.rx_len < 1
  · exact Or.inl h0
  have h0' : 1 ≤ m.this.rx_len := by omega
  by_cases h1 : m.this.rx_buffer.getD 0 0 = CMD_GET_INFO
  · exact Or.inr (Or.inl ⟨h0', h1⟩)
  by_cases h2 : m.this.rx_buffer.getD 0 0 = CMD_ERASE_APP
  · exact Or.inr (Or.inr (Or.inl ⟨h0', h2⟩))
  by_cases h3 : m.this.rx_buffer.getD 0 0 = CMD_WRITE_PAGE
  · by_cases hs : m.this.rx_len < FLASH_PAGE_SIZE + 5
    · exact Or.inr (Or.inr (Or.inr (Or.inl ⟨h0', h3, hs⟩)))
    · by_cases ha : frameAddr m.this.rx_buffer < APP_START_ADDRESS
      · exact Or.inr (Or.inr (Or.inr (Or.inr (Or.inl ⟨h3, by omega, ha⟩))))
      · exact Or.inr (Or.inr (Or.inr (Or.inr (Or.inr (Or.inl ⟨h3, by omega, by omega⟩)))))
  by_cases h4 : m.this.rx_buffer.getD 0 0 = CMD_RESET_DEV
  · exact Or.inr (Or.inr (Or.inr (Or.inr (Or.inr (Or.inr (Or.inl ⟨h0', h4⟩))))))
  by_cases h5 : m.this.rx_buffer.getD 0 0 = CMD_JUMP_APP
  · exact Or.inr (Or.inr (Or.inr (Or.inr (Or.inr (Or.inr (Or.inr (Or.inl ⟨h0', h5⟩)))))))
  · exact Or.inr (Or.inr (Or.inr (Or.inr (Or.inr (Or.inr (Or.inr (Or.inr
      ⟨h0', h1, h2, h3, h4, h5⟩)))))))

theorem mem_out_of_program_call (m : Machine) (t : Nat)
    (hcmd : m.this.rx_buffer.getD 0 0 = CMD_WRITE_PAGE)
    (hlen : FLASH_PAGE_SIZE + 5 ≤ m.this.rx_len)
    (haddr : APP_START_ADDRESS ≤ frameAddr m.this.rx_buffer)
    (hready : m.uart_ready 0 = true)
    (ht : t < loopPasses m.program_ok 256) :
    Event.flashProgram (u32 (frameAddr m.this.rx_buffer + 4 * t)) (pageWord m.this.rx_buffer (4 * t))
      ∈ (GBoot_ProcessCommand m).out := by
  obtain ⟨c1, -⟩ := write_run_calls m hcmd hlen haddr hready
  have hm : Event.flashProgram (u32 (frameAddr m.this.rx_buffer + 4 * t))
      (pageWord m.this.rx_buffer (4 * t)) ∈ hwCalls (GBoot_ProcessCommand m).out := by
    rw [c1]
    refine List.mem_cons_of_mem _ (List.mem_append_left _ ?_)
    exact List.mem_map.mpr ⟨t, List.mem_range.mpr ht, rfl⟩
  exact List.mem_of_mem_filter hm

theorem loopPasses_received (bytes : List Nat) : loopPasses (received bytes).program_ok 256 = 256 :=
  (loop_all_ok 256 (received bytes).program_ok (fun _ _ => rfl)).1

/-! ## Startup in closed form -/

theorem JumpToApp_eq_transfer (m : Machine) :
    GBoot_JumpToApp m =
      if memWord m.mem APP_START_ADDRESS &&& 0x2FFE0000 = 0x20000000 then
        { ctl := Ctl.stop Halt.jumped, m := m,
          out := transferEvents (memWord m.mem APP_START_ADDRESS)
            (memWord m.mem (APP_START_ADDRESS + 4)) }
      else { ctl := Ctl.ret (), m := m, out := [Event.wordRead APP_START_ADDRESS] } := by
  rw [JumpToApp_eq]; rfl

theorem Init_eq (m : Machine) :
    GBoot_Init m =
      if m.bkp_dr1 = GBOOT_MAGIC_KEY then
        { ctl := Ctl.ret (), m := { m with bkp_dr1 := 0 },
          out := [Event.pwrClkEnable, Event.bkpClkEnable, Event.enableBkUpAccess, Event.bkpRead,
            Event.bkpWrite 0, Event.receiveToIdle GBOOT_RX_BUF_SIZE] }
      else if memWord m.mem APP_START_ADDRESS &&& 0x2FFE0000 = 0x20000000 then
        { ctl := Ctl.stop Halt.jumped, m := m,
          out := [Event.pwrClkEnable, Event.bkpClkEnable, Event.enableBkUpAccess, Event.bkpRead]
            ++ transferEvents (memWord m.mem APP_START_ADDRESS)
              (memWord m.mem (APP_START_ADDRESS + 4)) }
      else
        { ctl := Ctl.ret (), m := { m with bkp_dr1 := 0 },
          out := [Event.pwrClkEnable, Event.bkpClkEnable, Event.enableBkUpAccess, Event.bkpRead,
            Event.wordRead APP_START_ADDRESS, Event.bkpWrite 0,
            Event.receiveToIdle GBOOT_RX_BUF_SIZE] } := by
  by_cases h : m.bkp_dr1 = GBOOT_MAGIC_KEY
  · simp [GBoot_Init, bind, Exec.bind, emit, bkpRead, bkpWrite, h, pure, Exec.pure]
  · by_cases hsp : memWord m.mem APP_START_ADDRESS &&& 0x2FFE0000 = 0x20000000
    · simp [GBoot_Init, bind, Exec.bind, emit, bkpRead, bkpWrite, h, JumpToApp_eq_transfer, hsp]
    · simp [GBoot_Init, bind, Exec.bind, emit, bkpRead, bkpWrite, h, JumpToApp_eq_transfer, hsp]

/-! ## Memory after the page loop -/

theorem programMem_bytes (mem : Nat → Nat) (addr b0 b1 b2 b3 a : Nat)
    (h0 : b0 < 256) (h1 : b1 < 256) (h2 : b2 < 256) (h3 : b3 < 256)
    (hfit : addr + 3 < 2 ^ 32) :
    programMem mem addr (b0 + 2 ^ 8 * b1 + 2 ^ 16 * b2 + 2 ^ 24 * b3) a
      = if a = addr then b0 else if a = addr + 1 then b1 else if a = addr + 2 then b2
        else if a = addr + 3 then b3 else mem a := by
  have e1 : u32 (addr + 1) = addr + 1 := by simp only [u32]; omega
  have e2 : u32 (addr + 2) = addr + 2 := by simp only [u32]; omega
  have e3 : u32 (addr + 3) = addr + 3 := by simp only [u32]; omega
  have v0 : (b0 + 2 ^ 8 * b1 + 2 ^ 16 * b2 + 2 ^ 24 * b3) % 256 = b0 := by omega
  have v1 : (b0 + 2 ^ 8 * b1 + 2 ^ 16 * b2 + 2 ^ 24 * b3) / 2 ^ 8 % 256 = b1 := by omega
  have v2 : (b0 + 2 ^ 8 * b1 + 2 ^ 16 * b2 + 2 ^ 24 * b3) / 2 ^ 16 % 256 = b2 := by omega
  have v3 : (b0 + 2 ^ 8 * b1 + 2 ^ 16 * b2 + 2 ^ 24 * b3) / 2 ^ 24 % 256 = b3 := by omega
  simp only [programMem, e1, e2, e3, v0, v1, v2, v3]

/-- With every program call succeeding and a page that does not wrap, the
loop entered at word `j` leaves the page bytes from offset `4 * j` on in
memory and every other byte of memory as it was. -/
theorem writeLoop_mem (addr : Nat) (haddr : addr + 1024 ≤ 2 ^ 32) :
    ∀ (n j : Nat) (m : Machine), j + n = 256 → IsBytes m.this.rx_buffer →
    (∀ t, t < n → m.program_ok t = true) →
    ∀ a, (writeLoop addr (4 * j) m).m.mem a
      = if addr + 4 * j ≤ a ∧ a < addr + 1024 then m.this.rx_buffer.getD (5 + (a - addr)) 0
        else m.mem a := by
  intro n
  induction n with
  | zero =>
    intro j m hj _ _ a
    have h : ¬ 4 * j < FLASH_PAGE_SIZE := by simp only [FLASH_PAGE_SIZE]; omega
    rw [writeLoop_done addr _ m h]
    have : ¬ (addr + 4 * j ≤ a ∧ a < addr + 1024) := by omega
    simp only [this, if_false]
  | succ n ih =>
    intro j m hj hb hok a
    have h : 4 * j < FLASH_PAGE_SIZE := by simp only [FLASH_PAGE_SIZE]; omega
    have hf : m.program_ok 0 = true := hok 0 (by omega)
    rw [writeLoop_step addr _ m h hf]
    have e4 : 4 * j + 4 = 4 * (j + 1) := by omega
    simp only [e4]
    have hrx : (HAL_FLASH_Program (u32 (addr + 4 * j)) (pageWord m.this.rx_buffer (4 * j)) m).m.this
        = m.this := rfl
    have hmem : (HAL_FLASH_Program (u32 (addr + 4 * j)) (pageWord m.this.rx_buffer (4 * j)) m).m.mem
        = programMem m.mem (u32 (addr + 4 * j)) (pageWord m.this.rx_buffer (4 * j)) := by
      simp [HAL_FLASH_Program, hf]
    rw [ih (j + 1) _ (by omega) (by rw [hrx]; exact hb)
      (fun t ht => by
        show m.program_ok (t + 1) = true
        exact hok (t + 1) (by omega)) a, hrx, hmem]
    have eu : u32 (addr + 4 * j) = addr + 4 * j := by simp only [u32]; omega
    rw [eu, pageWord_eq_leWord _ hb]
    simp only [leWord]
    rw [programMem_bytes _ _ _ _ _ _ _ (getD_lt_of_bytes _ hb _) (getD_lt_of_bytes _ hb _)
      (getD_lt_of_bytes _ hb _) (getD_lt_of_bytes _ hb _) (by omega)]
    by_cases c0 : a = addr + 4 * j
    · have i0 : 5 + (a - addr) = 5 + 4 * j := by omega
      have hn : ¬ (addr + 4 * (j + 1) ≤ a ∧ a < addr + 1024) := by omega
      have hin : addr + 4 * j ≤ a ∧ a < addr + 1024 := by omega
      rw [if_neg hn, if_pos c0, if_pos hin, i0]
    by_cases c1 : a = addr + 4 * j + 1
    · have i1 : 5 + (a - addr) = 5 + (4 * j + 1) := by omega
      have hn : ¬ (addr + 4 * (j + 1) ≤ a ∧ a < addr + 1024) := by omega
      have hin : addr + 4 * j ≤ a ∧ a < addr + 1024 := by omega
      rw [if_neg hn, if_neg c0, if_pos c1, if_pos hin, i1]
    by_cases c2 : a = addr + 4 * j + 2
    · have i2 : 5 + (a - addr) = 5 + (4 * j + 2) := by omega
      have hn : ¬ (addr + 4 * (j + 1) ≤ a ∧ a < addr + 1024) := by omega
      have hin : addr + 4 * j ≤ a ∧ a < addr + 1024 := by omega
      rw [if_neg hn, if_neg c0, if_neg c1, if_pos c2, if_pos hin, i2]
    by_cases c3 : a = addr + 4 * j + 3
    · have i3 : 5 + (a - addr) = 5 + (4 * j + 3) := by omega
      have hn : ¬ (addr + 4 * (j + 1) ≤ a ∧ a < addr + 1024) := by omega
      have hin : addr + 4 * j ≤ a ∧ a < addr + 1024 := by omega
      rw [if_neg hn, if_neg c0, if_neg c1, if_neg c2, if_pos c3, if_pos hin, i3]
    · simp only [c0, c1, c2, c3, if_false]
      by_cases hin : addr + 4 * (j + 1) ≤ a ∧ a < addr + 1024
      · have : addr + 4 * j ≤ a ∧ a < addr + 1024 := by omega
        simp only [hin, this, if_true, and_self]
      · have : ¬ (addr + 4 * j ≤ a ∧ a < addr + 1024) := by omega
        simp only [hin, this, if_false]

theorem filter_isTransmit_loopEvents (l : List Event) (h : ∀ e ∈ l, isLoopEvent e = true) :
    l.filter isTransmit = [] := by
  rw [List.filter_eq_nil_iff]
  intro e he
  have := h e he
  cases e <;> simp_all [isLoopEvent, isTransmit]

/-- The machine a full-length WRITE_PAGE run at an address at or above the
region start ends on, when the loop reports no failure and the transmit path
is idle: memory is as the loop left it. -/
theorem write_run_final_mem (m : Machine)
    (hcmd : m.this.rx_buffer.getD 0 0 = CMD_WRITE_PAGE)
    (hlen : FLASH_PAGE_SIZE + 5 ≤ m.this.rx_len)
    (haddr : APP_START_ADDRESS ≤ frameAddr m.this.rx_buffer)
    (hready : m.uart_ready 0 = true) :
    (GBoot_ProcessCommand m).m.mem
      = (writeLoop (frameAddr m.this.rx_buffer) 0 (unlocked m)).m.mem ∧
    (GBoot_ProcessCommand m).out.filter isTransmit
      = [Event.uartTransmit
          [if loopStatus m.program_ok 256 = 0 then GBOOT_ACK else GBOOT_NACK]] := by
  obtain ⟨u1, -⟩ := write_run_send_machine (frameAddr m.this.rx_buffer) m
  have hq := filter_isTransmit_loopEvents _
    (writeLoop_out_loopEvents (frameAddr m.this.rx_buffer) (unlocked m))
  have hr : (locked (writeLoop (frameAddr m.this.rx_buffer) 0 (unlocked m)).m).uart_ready 0
      = true := by rw [u1]; exact hready
  rw [ProcessCommand_write_run m hcmd hlen haddr]
  by_cases st : loopStatus m.program_ok 256 = 0
  · simp only [st, if_true, SendAck_eq, hr, Step.after]
    simp [hq, afterSend, locked, isTransmit, List.filter_cons]
  · simp only [st, if_false, SendNack_eq, hr, Step.after, if_true]
    simp [hq, afterSend, locked, isTransmit, List.filter_cons]

/-! ## The copy into the transmit buffer -/

theorem map_getD_range (data : List Nat) (n : Nat) (h : n ≤ data.length) :
    (List.range n).map (fun i => data.getD i 0) = data.take n := by
  apply List.ext_getElem
  · simp [Nat.min_eq_left h]
  · intro i h1 h2
    have hi : i < n := by simpa using h1
    have hd : i < data.length := by omega
    simp [List.getD, List.getElem?_eq_getElem hd]

theorem memcpy_eq (dst src : List Nat) (n : Nat) (h : n ≤ src.length) :
    memcpy dst src n = src.take n ++ dst.drop n := by
  rw [memcpy, map_getD_range src n h]

theorem clamp_eq_min (len : Nat) :
    (if len > GBOOT_TX_BUF_SIZE then GBOOT_TX_BUF_SIZE else len) = min len GBOOT_TX_BUF_SIZE := by
  split <;> omega

/-! ## The command loop -/

theorem filter_isArm_loopEvents (l : List Event) (h : ∀ e ∈ l, isLoopEvent e = true) :
    l.filter isArm = [] := by
  rw [List.filter_eq_nil_iff]
  intro e he
  have := h e he
  cases e <;> simp_all [isLoopEvent, isArm]

/-- GBoot_ProcessCommand never arms reception, whatever the frame and the
outcomes of the hardware calls. -/
theorem ProcessCommand_no_arm (m : Machine) : (GBoot_ProcessCommand m).out.filter isArm = [] := by
  rcases frame_cases m with h | ⟨h, hc⟩ | ⟨h, hc⟩ | ⟨h, hc, hs⟩ | ⟨hc, hs, ha⟩ | ⟨hc, hs, ha⟩
    | ⟨h, hc⟩ | ⟨h, hc⟩ | ⟨h, h1, h2, h3, h4, h5⟩
  · rw [ProcessCommand_empty m h]; rfl
  · rw [ProcessCommand_info m h hc, bind_run]
    cases r0 : m.uart_ready 0 <;> cases r1 : m.uart_ready 1 <;>
      simp [Step.after, Exec.bind, SendAck_eq, SendVersion_eq, afterSend, isArm, r0, r1]
  · rw [ProcessCommand_erase m h hc, bind_run]
    cases r0 : m.uart_ready 0 <;> cases e0 : m.erase_ok 0 <;>
      simp [Step.after, Exec.bind, SendAck_eq, SendNack_eq, afterSend, isArm,
        HAL_FLASHEx_Erase, unlocked, HAL_FLASH_Lock, r0, e0]
  · rw [ProcessCommand_write_short m h hc hs]
    cases r0 : m.uart_ready 0 <;> simp [Step.after, SendNack_eq, isArm, r0]
  · rw [ProcessCommand_write_low m hc hs ha]
    cases r0 : m.uart_ready 0 <;> simp [Step.after, SendNack_eq, isArm, r0]
  · obtain ⟨u1, -⟩ := write_run_send_machine (frameAddr m.this.rx_buffer) m
    have hq := filter_isArm_loopEvents _
      (writeLoop_out_loopEvents (frameAddr m.this.rx_buffer) (unlocked m))
    rw [ProcessCommand_write_run m hc hs ha]
    cases r0 : m.uart_ready 0 <;> by_cases st : loopStatus m.program_ok 256 = 0 <;>
      simp [Step.after, SendAck_eq, SendNack_eq, isArm, u1, r0, st, hq, List.filter_cons]
  · rw [ProcessCommand_reset m h hc, bind_run]
    cases r0 : m.uart_ready 0 <;>
      simp [Step.after, Exec.bind, SendAck_eq, NVIC_SystemReset, isArm, r0]
  · rw [ProcessCommand_jump m h hc, bind_run]
    cases r0 : m.uart_ready 0 <;>
      by_cases hsp : memWord m.mem APP_START_ADDRESS &&& 0x2FFE0000 = 0x20000000 <;>
      simp [Step.after, Exec.bind, SendAck_eq, JumpToApp_eq, afterSend, isArm, r0, hsp]
  · rw [ProcessCommand_other m h h1 h2 h3 h4 h5]
    cases r0 : m.uart_ready 0 <;> simp [Step.after, SendNack_eq, isArm, r0]

theorem Run_body_idle (m : Machine) (h : m.this.cmd_received = 0) :
    GBoot_Run_body m = { ctl := Ctl.ret (), m := m, out := [] } := by
  simp [GBoot_Run_body, bind, Exec.bind, getCmdReceived, h, pure, Exec.pure]

theorem Run_body_returned (m : Machine) (h : m.this.cmd_received ≠ 0)
    (hret : (GBoot_ProcessCommand m).returned = true) :
    GBoot_Run_body m =
      { ctl := Ctl.ret (),
        m := { (GBoot_ProcessCommand m).m with
          this := { (GBoot_ProcessCommand m).m.this with cmd_received := 0 } },
        out := (GBoot_ProcessCommand m).out ++ [Event.receiveToIdle GBOOT_RX_BUF_SIZE] } := by
  simp only [Step.returned] at hret
  cases hc : (GBoot_ProcessCommand m).ctl with
  | ret u =>
    simp [GBoot_Run_body, bind, Exec.bind, getCmdReceived, h, hc, setCmdReceived, emit]
  | stop r => rw [hc] at hret; simp at hret

/-! ## What a run reads of the receive buffer -/

theorem writeLoop_reads (addr : Nat) (m : Machine) (i : Nat)
    (he : Event.rxRead i ∈ (writeLoop addr 0 m).out) : 5 ≤ i ∧ i < 1029 := by
  obtain ⟨-, r2, -⟩ := writeLoop_run addr 256 0 m (by omega)
  simp only [Nat.mul_zero, Nat.zero_add] at r2
  rw [r2, List.mem_flatMap] at he
  obtain ⟨t, ht, hmem⟩ := he
  have ht' : t < 256 := Nat.lt_of_lt_of_le (List.mem_range.mp ht) (loopPasses_le 256 _)
  simp only [passEvents, List.mem_cons, List.mem_nil_iff, or_false] at hmem
  rcases hmem with h | h | h | h | h
  · injection h with h; omega
  · injection h with h; omega
  · injection h with h; omega
  · injection h with h; omega
  · cases h

theorem bind_withRx {α β : Type} (x : Exec α) (f : α → Exec β) (m : Machine) (rx : List Nat)
    (hx : x (withRx m rx) = (x m).withRx rx)
    (hf : ∀ a m1, f a (withRx m1 rx) = (f a m1).withRx rx) :
    (x >>= f) (withRx m rx) = ((x >>= f) m).withRx rx := by
  rw [bind_run, bind_run]
  simp only [Exec.bind, hx, Step.withRx]
  cases (x m).ctl with
  | ret a => simp only [hf, Step.withRx]
  | stop h => rfl

theorem after_withRx {α : Type} (es : List Event) (r : Step α) (rx : List Nat) :
    Step.after es (r.withRx rx) = (Step.after es r).withRx rx := rfl

theorem SendAck_withRx (m : Machine) (rx : List Nat) :
    GBoot_SendAck (withRx m rx) = (GBoot_SendAck m).withRx rx := by
  rw [SendAck_eq, SendAck_eq]
  cases r0 : m.uart_ready 0 <;> simp [withRx, Step.withRx, afterSend, r0]

theorem SendNack_withRx (m : Machine) (rx : List Nat) :
    GBoot_SendNack (withRx m rx) = (GBoot_SendNack m).withRx rx := by
  rw [SendNack_eq, SendNack_eq]
  cases r0 : m.uart_ready 0 <;> simp [withRx, Step.withRx, afterSend, r0]

theorem SendVersion_withRx (m : Machine) (rx : List Nat) :
    GBoot_SendResponse [0x01, 0x02] 2 (withRx m rx)
      = (GBoot_SendResponse [0x01, 0x02] 2 m).withRx rx := by
  rw [SendVersion_eq, SendVersion_eq]
  cases r0 : m.uart_ready 0 <;> simp [withRx, Step.withRx, afterSend, r0]

theorem JumpToApp_withRx (m : Machine) (rx : List Nat) :
    GBoot_JumpToApp (withRx m rx) = (GBoot_JumpToApp m).withRx rx := by
  rw [JumpToApp_eq, JumpToApp_eq]
  by_cases hsp : memWord m.mem APP_START_ADDRESS &&& 0x2FFE0000 = 0x20000000 <;>
    simp [withRx, Step.withRx, hsp]

theorem Lock_withRx (m : Machine) (rx : List Nat) :
    HAL_FLASH_Lock (withRx m rx) = (HAL_FLASH_Lock m).withRx rx := rfl

theorem Reset_withRx (m : Machine) (rx : List Nat) :
    NVIC_SystemReset (withRx m rx) = (NVIC_SystemReset m).withRx rx := rfl

theorem pageWord_congr (rx rx' : List Nat) (i : Nat)
    (h : ∀ k, 5 + i ≤ k → k < 5 + i + 4 → rx'.getD k 0 = rx.getD k 0) :
    pageWord rx' i = pageWord rx i := by
  simp only [pageWord]
  rw [h (5 + (i + 0)) (by omega) (by omega), h (5 + (i + 1)) (by omega) (by omega),
    h (5 + (i + 2)) (by omega) (by omega), h (5 + (i + 3)) (by omega) (by omega)]

theorem Program_withRx (a v : Nat) (m : Machine) (rx : List Nat) :
    (HAL_FLASH_Program a v (withRx m rx)).m = withRx (HAL_FLASH_Program a v m).m rx := rfl

/-- The page loop reads the receive buffer only at the offsets of the page
data: a buffer that agrees with the given one there gives the same run. -/
theorem writeLoop_withRx (addr : Nat) (rx : List Nat) :
    ∀ (n j : Nat) (m : Machine), j + n = 256 →
    (∀ k, 5 + 4 * j ≤ k → k < 1029 → rx.getD k 0 = m.this.rx_buffer.getD k 0) →
    writeLoop addr (4 * j) (withRx m rx) = (writeLoop addr (4 * j) m).withRx rx := by
  intro n
  induction n with
  | zero =>
    intro j m hj _
    have h : ¬ 4 * j < FLASH_PAGE_SIZE := by simp only [FLASH_PAGE_SIZE]; omega
    rw [writeLoop_done addr _ _ h, writeLoop_done addr _ _ h]
    rfl
  | succ n ih =>
    intro j m hj hag
    have h : 4 * j < FLASH_PAGE_SIZE := by simp only [FLASH_PAGE_SIZE]; omega
    have hw : pageWord (withRx m rx).this.rx_buffer (4 * j) = pageWord m.this.rx_buffer (4 * j) :=
      pageWord_congr _ _ _ (fun k h1 h2 => hag k h1 (by omega))
    have hp : passEvents (withRx m rx).this.rx_buffer addr (4 * j)
        = passEvents m.this.rx_buffer addr (4 * j) := by
      simp only [passEvents, hw]
    cases hf : m.program_ok 0 with
    | false =>
      rw [writeLoop_fail addr _ (withRx m rx) h hf, writeLoop_fail addr _ m h hf, hw, hp]
      rfl
    | true =>
      rw [writeLoop_step addr _ (withRx m rx) h hf, writeLoop_step addr _ m h hf, hw, hp,
        Program_withRx]
      have e4 : 4 * j + 4 = 4 * (j + 1) := by omega
      rw [e4, ih (j + 1)
        (HAL_FLASH_Program (u32 (addr + 4 * j)) (pageWord m.this.rx_buffer (4 * j)) m).m
        (by omega) (fun k h1 h2 => hag k (by omega) h2)]
      rfl

/-- GBoot_ProcessCommand looks at the first `rx_len` bytes of the receive
buffer only: a buffer that agrees with the given one below `rx_len` gives the
same run. -/
theorem ProcessCommand_withRx (m : Machine) (rx : List Nat)
    (hag : ∀ k, k < m.this.rx_len → rx.getD k 0 = m.this.rx_buffer.getD k 0) :
    GBoot_ProcessCommand (withRx m rx) = (GBoot_ProcessCommand m).withRx rx := by
  have hlen : (withRx m rx).this.rx_len = m.this.rx_len := rfl
  have hbuf : (withRx m rx).this.rx_buffer = rx := rfl
  rcases frame_cases m with h | ⟨h, hc⟩ | ⟨h, hc⟩ | ⟨h, hc, hs⟩ | ⟨hc, hs, ha⟩ | ⟨hc, hs, ha⟩
    | ⟨h, hc⟩ | ⟨h, hc⟩ | ⟨h, h1, h2, h3, h4, h5⟩
  · rw [ProcessCommand_empty _ (by rw [hlen]; exact h), ProcessCommand_empty m h]; rfl
  · have h0 := hag 0 (by omega)
    rw [ProcessCommand_info _ (by rw [hlen]; exact h) (by rw [hbuf, h0]; exact hc),
      ProcessCommand_info m h hc,
      bind_withRx _ _ _ _ (SendAck_withRx m rx) (fun _ m1 => SendVersion_withRx m1 rx)]
    rfl
  · have h0 := hag 0 (by omega)
    rw [ProcessCommand_erase _ (by rw [hlen]; exact h) (by rw [hbuf, h0]; exact hc),
      ProcessCommand_erase m h hc]
    have he : (withRx m rx).erase_ok 0 = m.erase_ok 0 := rfl
    have hm : (HAL_FLASHEx_Erase APP_START_ADDRESS 48 (unlocked (withRx m rx))).m
        = withRx (HAL_FLASHEx_Erase APP_START_ADDRESS 48 (unlocked m)).m rx := rfl
    rw [he, hm]
    cases e0 : m.erase_ok 0
    · simp only [Bool.false_eq_true, if_false]
      rw [bind_withRx _ _ _ _ (SendNack_withRx _ rx) (fun _ m1 => Lock_withRx m1 rx)]
      rfl
    · simp only [if_true]
      rw [bind_withRx _ _ _ _ (SendAck_withRx _ rx) (fun _ m1 => Lock_withRx m1 rx)]
      rfl
  · have h0 := hag 0 (by omega)
    rw [ProcessCommand_write_short _ (by rw [hlen]; exact h) (by rw [hbuf, h0]; exact hc)
        (by rw [hlen]; exact hs),
      ProcessCommand_write_short m h hc hs, SendNack_withRx]
    rfl
  · have hl : 1029 ≤ m.this.rx_len := by simp only [FLASH_PAGE_SIZE] at hs; omega
    have h0 := hag 0 (by omega)
    have hA : frameAddr rx = frameAddr m.this.rx_buffer := by
      simp only [frameAddr]
      rw [hag 1 (by omega), hag 2 (by omega), hag 3 (by omega), hag 4 (by omega)]
    rw [ProcessCommand_write_low _ (by rw [hbuf, h0]; exact hc) (by rw [hlen]; exact hs)
        (by rw [hbuf, hA]; exact ha),
      ProcessCommand_write_low m hc hs ha, SendNack_withRx]
    rfl
  · have hl : 1029 ≤ m.this.rx_len := by simp only [FLASH_PAGE_SIZE] at hs; omega
    have h0 := hag 0 (by omega)
    have hA : frameAddr rx = frameAddr m.this.rx_buffer := by
      simp only [frameAddr]
      rw [hag 1 (by omega), hag 2 (by omega), hag 3 (by omega), hag 4 (by omega)]
    have hW := writeLoop_withRx (frameAddr m.this.rx_buffer) rx 256 0 (unlocked m) (by omega)
      (fun k _ h2 => hag k (by omega))
    simp only [Nat.mul_zero] at hW
    have hu : unlocked (withRx m rx) = withRx (unlocked m) rx := rfl
    have hp : (withRx m rx).program_ok = m.program_ok := rfl
    rw [ProcessCommand_write_run _ (by rw [hbuf, h0]; exact hc) (by rw [hlen]; exact hs)
        (by rw [hbuf, hA]; exact ha),
      ProcessCommand_write_run m hc hs ha, hbuf, hA, hu, hW, hp]
    have hk : locked ((writeLoop (frameAddr m.this.rx_buffer) 0 (unlocked m)).withRx rx).m
        = withRx (locked (writeLoop (frameAddr m.this.rx_buffer) 0 (unlocked m)).m) rx := rfl
    rw [hk]
    by_cases st : loopStatus m.program_ok 256 = 0
    · simp only [st, if_true, SendAck_withRx]; rfl
    · simp only [st, if_false, SendNack_withRx]; rfl
  · have h0 := hag 0 (by omega)
    rw [ProcessCommand_reset _ (by rw [hlen]; exact h) (by rw [hbuf, h0]; exact hc),
      ProcessCommand_reset m h hc,
      bind_withRx _ _ _ _ (SendAck_withRx m rx) (fun _ m1 => Reset_withRx m1 rx)]
    rfl
  · have h0 := hag 0 (by omega)
    rw [ProcessCommand_jump _ (by rw [hlen]; exact h) (by rw [hbuf, h0]; exact hc),
      ProcessCommand_jump m h hc,
      bind_withRx _ _ _ _ (SendAck_withRx m rx) (fun _ m1 => JumpToApp_withRx m1 rx)]
    rfl
  · have h0 := hag 0 (by omega)
    rw [ProcessCommand_other _ (by rw [hlen]; exact h) (by rw [hbuf, h0]; exact h1)
        (by rw [hbuf, h0]; exact h2) (by rw [hbuf, h0]; exact h3) (by rw [hbuf, h0]; exact h4)
        (by rw [hbuf, h0]; exact h5),
      ProcessCommand_other m h h1 h2 h3 h4 h5, SendNack_withRx]
    rfl

/-- Every index at which GBoot_ProcessCommand reads the receive buffer is
below the recorded length and below the capacity of the buffer. -/
theorem ProcessCommand_reads (m : Machine) (i : Nat)
    (hi : Event.rxRead i ∈ (GBoot_ProcessCommand m).out) :
    i < m.this.rx_len ∧ i < GBOOT_RX_BUF_SIZE := by
  simp only [GBOOT_RX_BUF_SIZE]
  rcases frame_cases m with h | ⟨h, hc⟩ | ⟨h, hc⟩ | ⟨h, hc, hs⟩ | ⟨hc, hs, ha⟩ | ⟨hc, hs, ha⟩
    | ⟨h, hc⟩ | ⟨h, hc⟩ | ⟨h, h1, h2, h3, h4, h5⟩
  · rw [ProcessCommand_empty m h] at hi; simp at hi
  · rw [ProcessCommand_info m h hc, bind_run] at hi
    cases r0 : m.uart_ready 0 <;> cases r1 : m.uart_ready 1 <;>
      simp [Step.after, Exec.bind, SendAck_eq, SendVersion_eq, afterSend, r0, r1] at hi <;>
      omega
  · rw [ProcessCommand_erase m h hc, bind_run] at hi
    cases r0 : m.uart_ready 0 <;> cases e0 : m.erase_ok 0 <;>
      simp [Step.after, Exec.bind, SendAck_eq, SendNack_eq, afterSend, HAL_FLASHEx_Erase,
        unlocked, HAL_FLASH_Lock, r0, e0] at hi <;>
      omega
  · rw [ProcessCommand_write_short m h hc hs] at hi
    cases r0 : m.uart_ready 0 <;> simp [Step.after, SendNack_eq, r0] at hi <;> omega
  · simp only [FLASH_PAGE_SIZE] at hs
    rw [ProcessCommand_write_low m hc hs ha] at hi
    cases r0 : m.uart_ready 0 <;> simp [Step.after, SendNack_eq, r0] at hi <;> omega
  · obtain ⟨u1, -⟩ := write_run_send_machine (frameAddr m.this.rx_buffer) m
    have hloop := writeLoop_reads (frameAddr m.this.rx_buffer) (unlocked m) i
    have hs' : 1029 ≤ m.this.rx_len := by simp only [FLASH_PAGE_SIZE] at hs; omega
    rw [ProcessCommand_write_run m hc hs ha] at hi
    cases r0 : m.uart_ready 0 <;> by_cases st : loopStatus m.program_ok 256 = 0 <;>
      simp [Step.after, SendAck_eq, SendNack_eq, u1, r0, st] at hi <;>
      (rcases hi with hi | hi | hi | hi | hi | hi
       · omega
       · omega
       · omega
       · omega
       · omega
       · have := hloop hi; omega)
  · rw [ProcessCommand_reset m h hc, bind_run] at hi
    cases r0 : m.uart_ready 0 <;>
      simp [Step.after, Exec.bind, SendAck_eq, NVIC_SystemReset, r0] at hi <;> omega
  · rw [ProcessCommand_jump m h hc, bind_run] at hi
    cases r0 : m.uart_ready 0 <;>
      by_cases hsp : memWord m.mem APP_START_ADDRESS &&& 0x2FFE0000 = 0x20000000 <;>
      simp [Step.after, Exec.bind, SendAck_eq, JumpToApp_eq, afterSend, r0, hsp] at hi <;>
      omega
  · rw [ProcessCommand_other m h h1 h2 h3 h4 h5] at hi
    cases r0 : m.uart_ready 0 <;> simp [Step.after, SendNack_eq, r0] at hi <;> omega

theorem ProcessCommand_reads_short (m : Machine) (i : Nat)
    (h : 1 ≤ m.this.rx_len) (hc : m.this.rx_buffer.getD 0 0 = CMD_WRITE_PAGE)
    (hs : m.this.rx_len < FLASH_PAGE_SIZE + 5)
    (hi : Event.rxRead i ∈ (GBoot_ProcessCommand m).out) : i = 0 := by
  rw [ProcessCommand_write_short m h hc hs] at hi
  cases r0 : m.uart_ready 0 <;> simp [Step.after, SendNack_eq, r0] at hi <;> exact hi

/-! ## The stack-pointer check, bit by bit -/

theorem JumpToApp_jumps_iff (m : Machine) :
    (GBoot_JumpToApp m).ctl = Ctl.stop Halt.jumped
      ↔ spCheck (memWord m.mem APP_START_ADDRESS) = true := by
  rw [JumpToApp_eq_transfer]
  by_cases hsp : memWord m.mem APP_START_ADDRESS &&& 0x2FFE0000 = 0x20000000 <;>
    simp [hsp, spCheck]

/-- The check looks at bit 29, which has to be set, and at bits 17..27, which
have to be clear; no other bit of the word matters. -/
theorem spCheck_bits (w : Nat) :
    w &&& 0x2FFE0000 = 0x20000000 ↔ w / 2 ^ 29 % 2 = 1 ∧ w / 2 ^ 17 % 2 ^ 11 = 0 := by
  constructor
  · intro h
    have hb : ∀ i, (w.testBit i && Nat.testBit 0x2FFE0000 i) = Nat.testBit 0x20000000 i := by
      intro i
      rw [← Nat.testBit_and, h]
    have b29 := hb 29
    have b17 := hb 17
    have b18 := hb 18
    have b19 := hb 19
    have b20 := hb 20
    have b21 := hb 21
    have b22 := hb 22
    have b23 := hb 23
    have b24 := hb 24
    have b25 := hb 25
    have b26 := hb 26
    have b27 := hb 27
    simp [Nat.testBit_to_div_mod] at b29 b17 b18 b19 b20 b21 b22 b23 b24 b25 b26 b27
    omega
  · rintro ⟨h1, h2⟩
    apply Nat.eq_of_testBit_eq
    intro i
    rw [Nat.testBit_and]
    by_cases hi : i < 32
    · interval_cases i <;> simp [Nat.testBit_to_div_mod] <;> omega
    · have hp : (2 : Nat) ^ 32 ≤ 2 ^ i := Nat.pow_le_pow_right (by decide) (by omega)
      rw [Nat.testBit_lt_two_pow (x := 0x2FFE0000) (by omega),
        Nat.testBit_lt_two_pow (x := 0x20000000) (by omega)]
      simp

theorem spCheck_windows (w : Nat) (hw : w < 2 ^ 32) :
    spCheck w = true ↔ ∃ B ∈ spWindows, B ≤ w ∧ w ≤ B + 0x1FFFF := by
  simp only [spCheck, decide_eq_true_eq, spCheck_bits, spWindows, List.mem_cons,
    List.mem_nil_iff, or_false, exists_eq_or_imp, exists_eq_left]
  omega

theorem spWindows_disjoint :
    ∀ x ∈ spWindows.toFinset, ∀ y ∈ spWindows.toFinset, x ≠ y →
      Disjoint (Finset.Icc x (x + 0x1FFFF)) (Finset.Icc y (y + 0x1FFFF)) := by
  intro x hx y hy hxy
  rw [Finset.disjoint_left]
  intro a ha hb
  simp only [Finset.mem_Icc] at ha hb
  simp only [spWindows, List.mem_toFinset, List.mem_cons, List.mem_nil_iff, or_false] at hx hy
  omega

theorem spCheck_accepted_set :
    (Finset.range (2 ^ 32)).filter (fun w => spCheck w = true)
      = spWindows.toFinset.biUnion (fun B => Finset.Icc B (B + 0x1FFFF)) := by
  ext w
  simp only [Finset.mem_filter, Finset.mem_range, Finset.mem_biUnion, List.mem_toFinset,
    Finset.mem_Icc]
  constructor
  · rintro ⟨hw, hc⟩
    exact (spCheck_windows w hw).mp hc
  · intro h
    have hw : w < 2 ^ 32 := by
      obtain ⟨B, hB, -, h2⟩ := h
      simp only [spWindows, List.mem_cons, List.mem_nil_iff, or_false] at hB
      omega
    exact ⟨hw, (spCheck_windows w hw).mpr h⟩

theorem spCheck_accepted_card :
    ((Finset.range (2 ^ 32)).filter (fun w => spCheck w = true)).card = 8 * 2 ^ 17 := by
  rw [spCheck_accepted_set, Finset.card_biUnion spWindows_disjoint]
  have hsz : ∀ x : Nat, x + 0x1FFFF + 1 - x = 2 ^ 17 := fun x => by omega
  simp only [Nat.card_Icc, hsz, Finset.sum_const, smul_eq_mul]
  have hc : spWindows.toFinset.card = 8 := by decide
  rw [hc]

/-! ## Claims -/

/-- C1 (as amended): for a WRITE_PAGE frame of at least 1 + 4 + PAGE_SIZE bytes
whose little-endian address A (bytes 1..4, any byte values) is at least
APP_START_ADDRESS and for which A + PAGE_SIZE - 4 still is a 32-bit address,
when every program call reports success and the transmit path is idle, the
hardware calls of the handler are: unlock, the PAGE_SIZE/4 program calls, the
k-th at address A + 4k with the little-endian word of payload bytes 4k..4k+3,
in ascending order, lock, and then the transmit of the single byte ACK. -/
theorem C1_write_page_programs_words (m : Machine)
    (hcmd : m.this.rx_buffer.getD 0 0 = CMD_WRITE_PAGE)
    (hlen : 1 + 4 + FLASH_PAGE_SIZE ≤ m.this.rx_len)
    (hbytes : IsBytes m.this.rx_buffer)
    (haddr : APP_START_ADDRESS ≤ leAddr m.this.rx_buffer)
    (hfit : leAddr m.this.rx_buffer + (FLASH_PAGE_SIZE - 4) < 2 ^ 32)
    (hok : ∀ n, m.program_ok n = true)
    (hready : m.uart_ready 0 = true) :
    hwCalls (GBoot_ProcessCommand m).out
      = Event.flashUnlock ::
          ((List.range (FLASH_PAGE_SIZE / 4)).map
              (fun k => Event.flashProgram (leAddr m.this.rx_buffer + 4 * k)
                (leWord m.this.rx_buffer (4 * k)))
            ++ [Event.flashLock, Event.uartTransmit [GBOOT_ACK]]) ∧
    (GBoot_ProcessCommand m).returned = true := by
  have hA := frameAddr_eq_leAddr _ hbytes
  obtain ⟨c1, c2, -⟩ := write_run_calls m hcmd (by omega) (by rw [hA]; exact haddr) hready
  obtain ⟨p1, p2⟩ := loop_all_ok 256 m.program_ok (fun t _ => hok t)
  refine ⟨?_, c2⟩
  rw [c1, p1, p2, hA]
  have h256 : FLASH_PAGE_SIZE / 4 = 256 := rfl
  simp only [h256, if_true]
  congr 2
  apply List.map_congr_left
  intro k hk
  have hk' : k < 256 := List.mem_range.mp hk
  rw [pageWord_eq_leWord _ hbytes]
  have : u32 (leAddr m.this.rx_buffer + 4 * k) = leAddr m.this.rx_buffer + 4 * k := by
    simp only [FLASH_PAGE_SIZE] at hfit
    simp only [u32]
    omega
  rw [this]

theorem C1_write_page_programs_words_witness :
    hwCalls (GBoot_ProcessCommand (received (pageFrame 0x00 0x40 0x00 0x08 0xAB))).out
      = Event.flashUnlock ::
          ((List.range (FLASH_PAGE_SIZE / 4)).map
              (fun k => Event.flashProgram
                (leAddr (received (pageFrame 0x00 0x40 0x00 0x08 0xAB)).this.rx_buffer + 4 * k)
                (leWord (received (pageFrame 0x00 0x40 0x00 0x08 0xAB)).this.rx_buffer (4 * k)))
            ++ [Event.flashLock, Event.uartTransmit [GBOOT_ACK]]) ∧
    (GBoot_ProcessCommand (received (pageFrame 0x00 0x40 0x00 0x08 0xAB))).returned = true :=
  C1_write_page_programs_words (received (pageFrame 0x00 0x40 0x00 0x08 0xAB)) (by decide)
    (Nat.le_of_eq (rx_len_pageFrame _ _ _ _ _).symm)
    (isBytes_received _ (isBytes_pageFrame _ _ _ _ _ (by decide) (by decide) (by decide)
      (by decide) (by decide)))
    (by decide) (by decide) (fun _ => rfl) rfl

/-- C1 (as stated) fails when A + 4k leaves the 32-bit range: for the full
WRITE_PAGE frame with address bytes FC FF FF FF (A = 0xFFFFFFFC, which is at
least APP_START_ADDRESS) and all program calls succeeding, the second program
call goes to address 0, not to A + 4, so the calls made are not the claimed
ones. -/
theorem C1_counterexample :
    (received (pageFrame 0xFC 0xFF 0xFF 0xFF 0x00)).this.rx_buffer.getD 0 0 = CMD_WRITE_PAGE ∧
    1 + 4 + FLASH_PAGE_SIZE ≤ (received (pageFrame 0xFC 0xFF 0xFF 0xFF 0x00)).this.rx_len ∧
    leAddr (received (pageFrame 0xFC 0xFF 0xFF 0xFF 0x00)).this.rx_buffer = 0xFFFFFFFC ∧
    APP_START_ADDRESS ≤ leAddr (received (pageFrame 0xFC 0xFF 0xFF 0xFF 0x00)).this.rx_buffer ∧
    (∀ n, (received (pageFrame 0xFC 0xFF 0xFF 0xFF 0x00)).program_ok n = true) ∧
    (hwCalls (GBoot_ProcessCommand (received (pageFrame 0xFC 0xFF 0xFF 0xFF 0x00))).out)[2]?
      = some (Event.flashProgram 0 0) ∧
    hwCalls (GBoot_ProcessCommand (received (pageFrame 0xFC 0xFF 0xFF 0xFF 0x00))).out
      ≠ Event.flashUnlock ::
          ((List.range (FLASH_PAGE_SIZE / 4)).map
              (fun k => Event.flashProgram
                (leAddr (received (pageFrame 0xFC 0xFF 0xFF 0xFF 0x00)).this.rx_buffer + 4 * k)
                (leWord (received (pageFrame 0xFC 0xFF 0xFF 0xFF 0x00)).this.rx_buffer (4 * k)))
            ++ [Event.flashLock, Event.uartTransmit [GBOOT_ACK]]) := by
  have hA : frameAddr (received (pageFrame 0xFC 0xFF 0xFF 0xFF 0x00)).this.rx_buffer = 0xFFFFFFFC := by
    decide
  have hW : pageWord (received (pageFrame 0xFC 0xFF 0xFF 0xFF 0x00)).this.rx_buffer 4 = 0 := by
    decide
  have hL : leAddr (received (pageFrame 0xFC 0xFF 0xFF 0xFF 0x00)).this.rx_buffer = 0xFFFFFFFC := by
    decide
  obtain ⟨c1, -⟩ := write_run_calls (received (pageFrame 0xFC 0xFF 0xFF 0xFF 0x00)) (by decide)
    (Nat.le_of_eq (by rw [rx_len_pageFrame]; rfl)) (by rw [hA]; decide) rfl
  obtain ⟨p1, -⟩ := loop_all_ok 256 (received (pageFrame 0xFC 0xFF 0xFF 0xFF 0x00)).program_ok
    (fun _ _ => rfl)
  have h2 : (hwCalls (GBoot_ProcessCommand (received (pageFrame 0xFC 0xFF 0xFF 0xFF 0x00))).out)[2]?
      = some (Event.flashProgram 0 0) := by
    rw [c1, p1, hA, getElem?_calls _ 256 _ 1 (by omega), hW]
    rfl
  refine ⟨by decide, Nat.le_of_eq (rx_len_pageFrame _ _ _ _ _).symm, hL, by rw [hL]; decide,
    fun _ => rfl, h2, ?_⟩
  intro h
  have h256 : FLASH_PAGE_SIZE / 4 = 256 := rfl
  rw [h, hL, h256, getElem?_calls _ 256 _ 1 (by omega)] at h2
  simp at h2

/-- C2: a WRITE_PAGE frame (first byte 0x03) shorter than 1 + 4 + PAGE_SIZE bytes
is answered, once the transmit path is idle, with the single byte NACK and
nothing else: after the read of the opcode the only event is that transmit, so
no flash unlock, erase, program or lock call is made. -/
theorem C2_short_write_page (m : Machine)
    (hlen : 1 ≤ m.this.rx_len)
    (hcmd : m.this.rx_buffer.getD 0 0 = CMD_WRITE_PAGE)
    (hshort : m.this.rx_len < 1 + 4 + FLASH_PAGE_SIZE)
    (hready : m.uart_ready 0 = true) :
    (GBoot_ProcessCommand m).out = [Event.rxRead 0, Event.uartTransmit [GBOOT_NACK]] ∧
    (GBoot_ProcessCommand m).returned = true := by
  rw [ProcessCommand_write_short m hlen hcmd (by omega), SendNack_eq]
  simp [Step.after, hready, Step.returned]

theorem C2_short_write_page_witness :
    (GBoot_ProcessCommand (received [0x03])).out
        = [Event.rxRead 0, Event.uartTransmit [GBOOT_NACK]] ∧
    (GBoot_ProcessCommand (received [0x03])).returned = true :=
  C2_short_write_page (received [0x03]) (by decide) (by decide) (by decide) rfl

/-- C3: a full-length WRITE_PAGE frame whose little-endian address (bytes 1..4)
is below APP_START_ADDRESS is answered, once the transmit path is idle, with
exactly one NACK; the run consists of the reads of bytes 0..4 and that
transmit, so there is no flash unlock and no program call, whatever the
payload is. -/
theorem C3_write_page_below_start (m : Machine)
    (hcmd : m.this.rx_buffer.getD 0 0 = CMD_WRITE_PAGE)
    (hlen : 1 + 4 + FLASH_PAGE_SIZE ≤ m.this.rx_len)
    (hbytes : IsBytes m.this.rx_buffer)
    (haddr : leAddr m.this.rx_buffer < APP_START_ADDRESS)
    (hready : m.uart_ready 0 = true) :
    (GBoot_ProcessCommand m).out
      = [Event.rxRead 0, Event.rxRead 1, Event.rxRead 2, Event.rxRead 3, Event.rxRead 4,
          Event.uartTransmit [GBOOT_NACK]] ∧
    (GBoot_ProcessCommand m).returned = true := by
  rw [← frameAddr_eq_leAddr _ hbytes] at haddr
  rw [ProcessCommand_write_low m hcmd (by omega) haddr, SendNack_eq]
  simp [Step.after, hready, Step.returned]

theorem C3_write_page_below_start_witness :
    (GBoot_ProcessCommand (received (pageFrame 0xFF 0x3F 0x00 0x08 0xAB))).out
      = [Event.rxRead 0, Event.rxRead 1, Event.rxRead 2, Event.rxRead 3, Event.rxRead 4,
          Event.uartTransmit [GBOOT_NACK]] ∧
    (GBoot_ProcessCommand (received (pageFrame 0xFF 0x3F 0x00 0x08 0xAB))).returned = true :=
  C3_write_page_below_start (received (pageFrame 0xFF 0x3F 0x00 0x08 0xAB)) (by decide)
    (Nat.le_of_eq (rx_len_pageFrame _ _ _ _ _).symm)
    (isBytes_received _ (isBytes_pageFrame _ _ _ _ _ (by decide) (by decide) (by decide)
      (by decide) (by decide)))
    (by decide) rfl

/-- C4 (as amended): for every frame and every outcome of the hardware calls,
every address handed to the erase operation is APP_START_ADDRESS itself (so
at or above the region start and word aligned); and every address handed to
the program operation, A being the address the handler decodes from frame
bytes 1..4, is at or above APP_START_ADDRESS provided A + PAGE_SIZE - 4 is
still a 32-bit address, and is word aligned provided A is. -/
theorem C4_flash_addresses (m : Machine) :
    (∀ a n, Event.flashErase a n ∈ (GBoot_ProcessCommand m).out →
      a = APP_START_ADDRESS ∧ APP_START_ADDRESS ≤ a ∧ a % 4 = 0) ∧
    (∀ a v, Event.flashProgram a v ∈ (GBoot_ProcessCommand m).out →
      (frameAddr m.this.rx_buffer + (FLASH_PAGE_SIZE - 4) < 2 ^ 32 → APP_START_ADDRESS ≤ a) ∧
      (frameAddr m.this.rx_buffer % 4 = 0 → a % 4 = 0)) := by
  rcases frame_cases m with h | ⟨h, hc⟩ | ⟨h, hc⟩ | ⟨h, hc, hs⟩ | ⟨hc, hs, ha⟩ | ⟨hc, hs, ha⟩
    | ⟨h, hc⟩ | ⟨h, hc⟩ | ⟨h, h1, h2, h3, h4, h5⟩
  · rw [ProcessCommand_empty m h]; simp
  · rw [ProcessCommand_info m h hc, bind_run]
    cases r0 : m.uart_ready 0 <;> cases r1 : m.uart_ready 1 <;>
      simp [Step.after, Exec.bind, SendAck_eq, SendVersion_eq, afterSend, r0, r1]
  · rw [ProcessCommand_erase m h hc, bind_run]
    cases r0 : m.uart_ready 0 <;> cases e0 : m.erase_ok 0 <;>
      simp [Step.after, Exec.bind, SendAck_eq, SendNack_eq, afterSend, HAL_FLASHEx_Erase,
        unlocked, HAL_FLASH_Lock, r0, e0, APP_START_ADDRESS]
  · rw [ProcessCommand_write_short m h hc hs]
    cases r0 : m.uart_ready 0 <;> simp [Step.after, SendNack_eq, r0]
  · rw [ProcessCommand_write_low m hc hs ha]
    cases r0 : m.uart_ready 0 <;> simp [Step.after, SendNack_eq, r0]
  · obtain ⟨u1, -⟩ := write_run_send_machine (frameAddr m.this.rx_buffer) m
    have hloop := writeLoop_out_mem (frameAddr m.this.rx_buffer) (unlocked m)
    have hbound : ∀ a v, Event.flashProgram a v
          ∈ (writeLoop (frameAddr m.this.rx_buffer) 0 (unlocked m)).out →
        (frameAddr m.this.rx_buffer + (FLASH_PAGE_SIZE - 4) < 2 ^ 32 → APP_START_ADDRESS ≤ a) ∧
        (frameAddr m.this.rx_buffer % 4 = 0 → a % 4 = 0) := by
      intro a v hav
      rcases hloop _ hav with ⟨i, hi⟩ | ⟨t, ht, he⟩
      · cases hi
      · injection he with ha' _
        subst ha'
        simp only [FLASH_PAGE_SIZE, APP_START_ADDRESS, u32] at ha ⊢
        constructor <;> intro _ <;> omega
    have hnoerase : ∀ a n, Event.flashErase a n
          ∉ (writeLoop (frameAddr m.this.rx_buffer) 0 (unlocked m)).out := by
      intro a n hav
      rcases hloop _ hav with ⟨i, hi⟩ | ⟨t, ht, he⟩
      · cases hi
      · cases he
    rw [ProcessCommand_write_run m hc hs ha]
    cases r0 : m.uart_ready 0 <;> by_cases st : loopStatus m.program_ok 256 = 0 <;>
      simp [Step.after, SendAck_eq, SendNack_eq, u1, r0, st, hnoerase] <;>
      exact hbound
  · rw [ProcessCommand_reset m h hc, bind_run]
    cases r0 : m.uart_ready 0 <;>
      simp [Step.after, Exec.bind, SendAck_eq, NVIC_SystemReset, r0]
  · rw [ProcessCommand_jump m h hc, bind_run]
    cases r0 : m.uart_ready 0 <;>
      by_cases hsp : memWord m.mem APP_START_ADDRESS &&& 0x2FFE0000 = 0x20000000 <;>
      simp [Step.after, Exec.bind, SendAck_eq, JumpToApp_eq, afterSend, r0, hsp]
  · rw [ProcessCommand_other m h h1 h2 h3 h4 h5]
    cases r0 : m.uart_ready 0 <;> simp [Step.after, SendNack_eq, r0]

theorem C4_flash_addresses_witness :
    (Event.flashErase 0x08004000 48 ∈ (GBoot_ProcessCommand (received [0x02])).out ∧
      APP_START_ADDRESS ≤ 0x08004000 ∧ 0x08004000 % 4 = 0) ∧
    (Event.flashProgram
        (u32 (frameAddr (received (pageFrame 0x00 0x40 0x00 0x08 0xAB)).this.rx_buffer + 4 * 0))
        (pageWord (received (pageFrame 0x00 0x40 0x00 0x08 0xAB)).this.rx_buffer (4 * 0))
        ∈ (GBoot_ProcessCommand (received (pageFrame 0x00 0x40 0x00 0x08 0xAB))).out ∧
      APP_START_ADDRESS
        ≤ u32 (frameAddr (received (pageFrame 0x00 0x40 0x00 0x08 0xAB)).this.rx_buffer + 4 * 0) ∧
      u32 (frameAddr (received (pageFrame 0x00 0x40 0x00 0x08 0xAB)).this.rx_buffer + 4 * 0) % 4
        = 0) :=
  have he : Event.flashErase 0x08004000 48 ∈ (GBoot_ProcessCommand (received [0x02])).out := by
    decide
  have hp := mem_out_of_program_call (received (pageFrame 0x00 0x40 0x00 0x08 0xAB)) 0
    (by decide) (Nat.le_of_eq (by rw [rx_len_pageFrame]; rfl)) (by decide) rfl
    (by rw [loopPasses_received]; decide)
  ⟨⟨he, ((C4_flash_addresses (received [0x02])).1 _ _ he).2⟩,
   ⟨hp,
    ((C4_flash_addresses (received (pageFrame 0x00 0x40 0x00 0x08 0xAB))).2 _ _ hp).1 (by decide),
    ((C4_flash_addresses (received (pageFrame 0x00 0x40 0x00 0x08 0xAB))).2 _ _ hp).2 (by decide)⟩⟩

/-- C4 (as stated) fails in both respects.  A full WRITE_PAGE frame with the
address bytes 01 40 00 08 (A = 0x08004001, not word aligned) makes the handler
program the unaligned address 0x08004001.  A full WRITE_PAGE frame with the
address bytes FC FF FF FF (A = 0xFFFFFFFC) makes the handler program, as its
second word, address 0, which is below APP_START_ADDRESS. -/
theorem C4_counterexample :
    (Event.flashProgram 0x08004001 0
        ∈ (GBoot_ProcessCommand (received (pageFrame 0x01 0x40 0x00 0x08 0x00))).out ∧
      ¬ (∀ a v, Event.flashProgram a v
          ∈ (GBoot_ProcessCommand (received (pageFrame 0x01 0x40 0x00 0x08 0x00))).out →
        APP_START_ADDRESS ≤ a ∧ a % 4 = 0)) ∧
    (Event.flashProgram 0 0
        ∈ (GBoot_ProcessCommand (received (pageFrame 0xFC 0xFF 0xFF 0xFF 0x00))).out ∧
      ¬ (∀ a v, Event.flashProgram a v
          ∈ (GBoot_ProcessCommand (received (pageFrame 0xFC 0xFF 0xFF 0xFF 0x00))).out →
        APP_START_ADDRESS ≤ a ∧ a % 4 = 0)) := by
  have h1 := mem_out_of_program_call (received (pageFrame 0x01 0x40 0x00 0x08 0x00)) 0
    (by decide) (Nat.le_of_eq (by rw [rx_len_pageFrame]; rfl)) (by decide) rfl
    (by rw [loopPasses_received]; decide)
  have e1 : u32 (frameAddr (received (pageFrame 0x01 0x40 0x00 0x08 0x00)).this.rx_buffer + 4 * 0)
      = 0x08004001 := by decide
  have w1 : pageWord (received (pageFrame 0x01 0x40 0x00 0x08 0x00)).this.rx_buffer (4 * 0) = 0 := by
    decide
  rw [e1, w1] at h1
  have h2 := mem_out_of_program_call (received (pageFrame 0xFC 0xFF 0xFF 0xFF 0x00)) 1
    (by decide) (Nat.le_of_eq (by rw [rx_len_pageFrame]; rfl)) (by decide) rfl
    (by rw [loopPasses_received]; decide)
  have e2 : u32 (frameAddr (received (pageFrame 0xFC 0xFF 0xFF 0xFF 0x00)).this.rx_buffer + 4 * 1)
      = 0 := by decide
  have w2 : pageWord (received (pageFrame 0xFC 0xFF 0xFF 0xFF 0x00)).this.rx_buffer (4 * 1) = 0 := by
    decide
  rw [e2, w2] at h2
  refine ⟨⟨h1, fun h => ?_⟩, ⟨h2, fun h => ?_⟩⟩
  · have := (h _ _ h1).2
    omega
  · have := (h _ _ h2).1
    simp [APP_START_ADDRESS] at this

/-- C5: for every frame, ERASE_APP and WRITE_PAGE frames of any length and
content in particular, and every outcome of the erase and program calls: if
the controller is locked when the frame arrives (its state after reset, and
by this very theorem its state after every earlier command that returned) and
GBoot_ProcessCommand returns, then the controller is locked again, and in the
run every erase and program call is made between an unlock and the lock that
follows it.  The lock is made on the failure paths as on the success paths. -/
theorem C5_flash_left_locked (m : Machine)
    (hlocked : m.flash_locked = true)
    (hret : (GBoot_ProcessCommand m).returned = true) :
    (GBoot_ProcessCommand m).m.flash_locked = true ∧
    wellBracketed true (GBoot_ProcessCommand m).out = true := by
  rcases frame_cases m with h | ⟨h, hc⟩ | ⟨h, hc⟩ | ⟨h, hc, hs⟩ | ⟨hc, hs, ha⟩ | ⟨hc, hs, ha⟩
    | ⟨h, hc⟩ | ⟨h, hc⟩ | ⟨h, h1, h2, h3, h4, h5⟩
  · rw [ProcessCommand_empty m h]; simp [hlocked, wellBracketed]
  · rw [ProcessCommand_info m h hc, bind_run] at hret ⊢
    cases r0 : m.uart_ready 0 <;> cases r1 : m.uart_ready 1 <;>
      simp [Step.after, Exec.bind, SendAck_eq, SendVersion_eq, afterSend, Step.returned,
        wellBracketed, r0, r1, hlocked] at hret ⊢
  · rw [ProcessCommand_erase m h hc, bind_run] at hret ⊢
    cases r0 : m.uart_ready 0 <;> cases e0 : m.erase_ok 0 <;>
      simp [Step.after, Exec.bind, SendAck_eq, SendNack_eq, afterSend, Step.returned,
        wellBracketed, HAL_FLASHEx_Erase, unlocked, HAL_FLASH_Lock, r0, e0] at hret ⊢
  · rw [ProcessCommand_write_short m h hc hs] at hret ⊢
    cases r0 : m.uart_ready 0 <;>
      simp [Step.after, SendNack_eq, afterSend, Step.returned, wellBracketed, r0, hlocked]
        at hret ⊢
  · rw [ProcessCommand_write_low m hc hs ha] at hret ⊢
    cases r0 : m.uart_ready 0 <;>
      simp [Step.after, SendNack_eq, afterSend, Step.returned, wellBracketed, r0, hlocked]
        at hret ⊢
  · obtain ⟨u1, u2⟩ := write_run_send_machine (frameAddr m.this.rx_buffer) m
    have hq := fun rest => wellBracketed_loopEvents _ rest
      (writeLoop_out_loopEvents (frameAddr m.this.rx_buffer) (unlocked m))
    rw [ProcessCommand_write_run m hc hs ha] at hret ⊢
    cases r0 : m.uart_ready 0 <;> by_cases st : loopStatus m.program_ok 256 = 0 <;>
      simp [Step.after, SendAck_eq, SendNack_eq, afterSend, Step.returned, wellBracketed, u1, u2,
        r0, st, hq] at hret ⊢
  · rw [ProcessCommand_reset m h hc, bind_run] at hret
    cases r0 : m.uart_ready 0 <;>
      simp [Step.after, Exec.bind, SendAck_eq, Step.returned, NVIC_SystemReset, r0] at hret
  · rw [ProcessCommand_jump m h hc, bind_run] at hret ⊢
    cases r0 : m.uart_ready 0 <;>
      by_cases hsp : memWord m.mem APP_START_ADDRESS &&& 0x2FFE0000 = 0x20000000 <;>
      simp [Step.after, Exec.bind, SendAck_eq, JumpToApp_eq, afterSend, Step.returned,
        wellBracketed, r0, hsp, hlocked] at hret ⊢
  · rw [ProcessCommand_other m h h1 h2 h3 h4 h5] at hret ⊢
    cases r0 : m.uart_ready 0 <;>
      simp [Step.after, SendNack_eq, afterSend, Step.returned, wellBracketed, r0, hlocked]
        at hret ⊢

theorem C5_flash_left_locked_witness :
    (GBoot_ProcessCommand (received [0x02])).m.flash_locked = true ∧
    wellBracketed true (GBoot_ProcessCommand (received [0x02])).out = true :=
  C5_flash_left_locked (received [0x02]) rfl (by decide)

/-- C6: for a full-length WRITE_PAGE frame with an address A at or above
APP_START_ADDRESS in which the program call for word k (k < PAGE_SIZE/4) is the
first to report failure, the hardware calls of the handler are, once the
transmit path is idle: unlock, the k + 1 program calls for words 0..k in
order (the j-th at the 32-bit address A + 4j), lock, and the transmit of the
single byte NACK.  No program call follows the failing one, no erase or other
call undoes the k words already programmed, the controller ends locked, and
no ACK is sent. -/
theorem C6_write_page_stops_at_first_failure (m : Machine) (k : Nat)
    (hcmd : m.this.rx_buffer.getD 0 0 = CMD_WRITE_PAGE)
    (hlen : 1 + 4 + FLASH_PAGE_SIZE ≤ m.this.rx_len)
    (hbytes : IsBytes m.this.rx_buffer)
    (haddr : APP_START_ADDRESS ≤ leAddr m.this.rx_buffer)
    (hk : k < FLASH_PAGE_SIZE / 4)
    (hok : ∀ j, j < k → m.program_ok j = true)
    (hfail : m.program_ok k = false)
    (hready : m.uart_ready 0 = true) :
    hwCalls (GBoot_ProcessCommand m).out
      = Event.flashUnlock ::
          ((List.range (k + 1)).map
              (fun j => Event.flashProgram (u32 (leAddr m.this.rx_buffer + 4 * j))
                (leWord m.this.rx_buffer (4 * j)))
            ++ [Event.flashLock, Event.uartTransmit [GBOOT_NACK]]) ∧
    (GBoot_ProcessCommand m).returned = true ∧
    (GBoot_ProcessCommand m).m.flash_locked = true := by
  have hA := frameAddr_eq_leAddr _ hbytes
  obtain ⟨c1, c2, c3⟩ := write_run_calls m hcmd (by omega) (by rw [hA]; exact haddr) hready
  have h256 : FLASH_PAGE_SIZE / 4 = 256 := rfl
  obtain ⟨p1, p2⟩ := loop_first_fail k 256 m.program_ok (by omega) hok hfail
  refine ⟨?_, c2, c3⟩
  rw [c1, p1, p2, hA]
  simp only [Nat.succ_ne_zero, if_false, one_ne_zero]
  congr 2
  apply List.map_congr_left
  intro j _
  rw [pageWord_eq_leWord _ hbytes]

theorem C6_write_page_stops_at_first_failure_witness :
    hwCalls (GBoot_ProcessCommand (receivedFailing (pageFrame 0x00 0x40 0x00 0x08 0xAB) 2)).out
      = Event.flashUnlock ::
          ((List.range (2 + 1)).map
              (fun j => Event.flashProgram
                (u32 (leAddr (receivedFailing (pageFrame 0x00 0x40 0x00 0x08 0xAB) 2).this.rx_buffer
                  + 4 * j))
                (leWord (receivedFailing (pageFrame 0x00 0x40 0x00 0x08 0xAB) 2).this.rx_buffer
                  (4 * j)))
            ++ [Event.flashLock, Event.uartTransmit [GBOOT_NACK]]) ∧
    (GBoot_ProcessCommand (receivedFailing (pageFrame 0x00 0x40 0x00 0x08 0xAB) 2)).returned
      = true ∧
    (GBoot_ProcessCommand (receivedFailing (pageFrame 0x00 0x40 0x00 0x08 0xAB) 2)).m.flash_locked
      = true :=
  C6_write_page_stops_at_first_failure (receivedFailing (pageFrame 0x00 0x40 0x00 0x08 0xAB) 2) 2
    (by decide)
    (Nat.le_of_eq (rx_len_pageFrame _ _ _ _ _).symm)
    (isBytes_received _ (isBytes_pageFrame _ _ _ _ _ (by decide) (by decide) (by decide)
      (by decide) (by decide)))
    (by decide) (by decide)
    (fun j hj => by simp [receivedFailing, hj])
    (by decide) rfl

/-- C7: a frame whose first byte is GET_INFO (0x01), whatever follows, makes the
handler transmit, once the transmit path gets idle for each send, the byte ACK
and then the two version bytes 0x01, 0x02, and return; nothing else happens:
no NACK, no flash call, no reset, no boot transfer. -/
theorem C7_get_info (m : Machine)
    (hlen : 1 ≤ m.this.rx_len)
    (hcmd : m.this.rx_buffer.getD 0 0 = CMD_GET_INFO)
    (hready : ∀ n, m.uart_ready n = true) :
    (GBoot_ProcessCommand m).out
      = [Event.rxRead 0, Event.uartTransmit [0x79], Event.uartTransmit [0x01, 0x02]] ∧
    (GBoot_ProcessCommand m).returned = true := by
  rw [ProcessCommand_info m hlen hcmd, bind_run]
  simp [Step.after, Exec.bind, SendAck_eq, SendVersion_eq, hready, afterSend, Step.returned,
    GBOOT_ACK]

theorem C7_get_info_witness :
    (GBoot_ProcessCommand (received [0x01, 0x55, 0xAA])).out
      = [Event.rxRead 0, Event.uartTransmit [0x79], Event.uartTransmit [0x01, 0x02]] ∧
    (GBoot_ProcessCommand (received [0x01, 0x55, 0xAA])).returned = true :=
  C7_get_info (received [0x01, 0x55, 0xAA]) (by decide) (by decide) (fun _ => rfl)

/-- C8 (as amended): whenever GBoot_ProcessCommand returns, whatever the frame
and the outcomes of the hardware calls, the number of status responses
(transmits of the single byte ACK or of the single byte NACK) it has sent is
exactly one if the recorded length is at least 1, and zero if the recorded
length is 0. -/
theorem C8_one_status_per_frame (m : Machine)
    (hret : (GBoot_ProcessCommand m).returned = true) :
    (GBoot_ProcessCommand m).out.countP isStatus = if m.this.rx_len < 1 then 0 else 1 := by
  rcases frame_cases m with h | ⟨h, hc⟩ | ⟨h, hc⟩ | ⟨h, hc, hs⟩ | ⟨hc, hs, ha⟩ | ⟨hc, hs, ha⟩
    | ⟨h, hc⟩ | ⟨h, hc⟩ | ⟨h, h1, h2, h3, h4, h5⟩
  · rw [ProcessCommand_empty m h]; simp [h]
  · have hl : ¬ m.this.rx_len < 1 := by omega
    rw [ProcessCommand_info m h hc, bind_run] at hret ⊢
    cases r0 : m.uart_ready 0 <;> cases r1 : m.uart_ready 1 <;>
      simp [Step.after, Exec.bind, SendAck_eq, SendVersion_eq, afterSend, Step.returned, isStatus,
        r0, r1, hl, GBOOT_ACK, GBOOT_NACK] at hret ⊢
  · have hl : ¬ m.this.rx_len < 1 := by omega
    rw [ProcessCommand_erase m h hc, bind_run] at hret ⊢
    cases r0 : m.uart_ready 0 <;> cases e0 : m.erase_ok 0 <;>
      simp [Step.after, Exec.bind, SendAck_eq, SendNack_eq, afterSend, Step.returned, isStatus,
        HAL_FLASHEx_Erase, unlocked, HAL_FLASH_Lock, r0, e0, hl, GBOOT_ACK, GBOOT_NACK] at hret ⊢
  · have hl : ¬ m.this.rx_len < 1 := by omega
    rw [ProcessCommand_write_short m h hc hs] at hret ⊢
    cases r0 : m.uart_ready 0 <;>
      simp [Step.after, SendNack_eq, Step.returned, isStatus, r0, hl, GBOOT_ACK, GBOOT_NACK]
        at hret ⊢
  · have hl : ¬ m.this.rx_len < 1 := by simp only [FLASH_PAGE_SIZE] at hs; omega
    rw [ProcessCommand_write_low m hc hs ha] at hret ⊢
    cases r0 : m.uart_ready 0 <;>
      simp [Step.after, SendNack_eq, Step.returned, isStatus, r0, hl, GBOOT_ACK, GBOOT_NACK]
        at hret ⊢
  · have hl : ¬ m.this.rx_len < 1 := by simp only [FLASH_PAGE_SIZE] at hs; omega
    obtain ⟨u1, -⟩ := write_run_send_machine (frameAddr m.this.rx_buffer) m
    have hq := countP_isStatus_loopEvents _
      (writeLoop_out_loopEvents (frameAddr m.this.rx_buffer) (unlocked m))
    rw [ProcessCommand_write_run m hc hs ha] at hret ⊢
    cases r0 : m.uart_ready 0 <;> by_cases st : loopStatus m.program_ok 256 = 0 <;>
      simp [Step.after, SendAck_eq, SendNack_eq, Step.returned, isStatus, u1, r0, st, hl, hq,
        List.countP_cons, GBOOT_ACK, GBOOT_NACK] at hret ⊢
  · rw [ProcessCommand_reset m h hc, bind_run] at hret
    cases r0 : m.uart_ready 0 <;>
      simp [Step.after, Exec.bind, SendAck_eq, Step.returned, NVIC_SystemReset, r0] at hret
  · have hl : ¬ m.this.rx_len < 1 := by omega
    rw [ProcessCommand_jump m h hc, bind_run] at hret ⊢
    cases r0 : m.uart_ready 0 <;>
      by_cases hsp : memWord m.mem APP_START_ADDRESS &&& 0x2FFE0000 = 0x20000000 <;>
      simp [Step.after, Exec.bind, SendAck_eq, JumpToApp_eq, afterSend, Step.returned, isStatus,
        r0, hsp, hl, GBOOT_ACK, GBOOT_NACK] at hret ⊢
  · have hl : ¬ m.this.rx_len < 1 := by omega
    rw [ProcessCommand_other m h h1 h2 h3 h4 h5] at hret ⊢
    cases r0 : m.uart_ready 0 <;>
      simp [Step.after, SendNack_eq, Step.returned, isStatus, r0, hl, GBOOT_ACK, GBOOT_NACK]
        at hret ⊢

theorem C8_one_status_per_frame_witness :
    (GBoot_ProcessCommand (received [0x01])).out.countP isStatus
      = if (received [0x01]).this.rx_len < 1 then 0 else 1 :=
  C8_one_status_per_frame (received [0x01]) (by decide)

/-- C8 (as stated) fails for a recorded length of 0: GBoot_ProcessCommand
returns at once, having read nothing and sent nothing, so the number of status
responses is zero, not one. -/
theorem C8_counterexample :
    (received []).this.rx_len = 0 ∧
    (GBoot_ProcessCommand (received [])).returned = true ∧
    (GBoot_ProcessCommand (received [])).out = [] ∧
    (GBoot_ProcessCommand (received [])).out.countP isStatus ≠ 1 := by
  decide

/-- C9: a frame whose first byte is none of the five opcodes 0x01..0x05 is
answered, once the transmit path is idle, with the single byte NACK, and the
handler returns; the run consists of the read of the opcode and that
transmit: no flash unlock, erase, program or lock, no reset, no boot transfer. -/
theorem C9_unknown_opcode (m : Machine)
    (hlen : 1 ≤ m.this.rx_len)
    (hcmd : m.this.rx_buffer.getD 0 0 ∉
      [CMD_GET_INFO, CMD_ERASE_APP, CMD_WRITE_PAGE, CMD_RESET_DEV, CMD_JUMP_APP])
    (hready : m.uart_ready 0 = true) :
    (GBoot_ProcessCommand m).out = [Event.rxRead 0, Event.uartTransmit [0x1F]] ∧
    (GBoot_ProcessCommand m).returned = true := by
  simp only [List.mem_cons, List.mem_nil_iff, or_false, not_or] at hcmd
  obtain ⟨h1, h2, h3, h4, h5⟩ := hcmd
  rw [ProcessCommand_other m hlen h1 h2 h3 h4 h5, SendNack_eq]
  simp [Step.after, hready, Step.returned, GBOOT_NACK]

theorem C9_unknown_opcode_witness :
    ((GBoot_ProcessCommand (received [0x99])).out = [Event.rxRead 0, Event.uartTransmit [0x1F]] ∧
      (GBoot_ProcessCommand (received [0x99])).returned = true) ∧
    ((GBoot_ProcessCommand (received [GBOOT_CMD_SYNC])).out
        = [Event.rxRead 0, Event.uartTransmit [0x1F]] ∧
      (GBoot_ProcessCommand (received [GBOOT_CMD_SYNC])).returned = true) :=
  ⟨C9_unknown_opcode (received [0x99]) (by decide) (by decide) rfl,
   C9_unknown_opcode (received [GBOOT_CMD_SYNC]) (by decide) (by decide) rfl⟩

/-- C10: a frame whose first byte is ERASE_APP (0x02) makes the handler unlock
the controller, make one erase call for 48 pages from APP_START_ADDRESS
(whatever the other frame bytes are), send, once the transmit path is idle,
one ACK if that call reports success and one NACK if it reports failure, lock
the controller and return; there is no program call. -/
theorem C10_erase_app (m : Machine)
    (hlen : 1 ≤ m.this.rx_len)
    (hcmd : m.this.rx_buffer.getD 0 0 = CMD_ERASE_APP)
    (hready : m.uart_ready 0 = true) :
    (GBoot_ProcessCommand m).out
      = [Event.rxRead 0, Event.flashUnlock, Event.flashErase 0x08004000 48,
          Event.uartTransmit [if m.erase_ok 0 = true then 0x79 else 0x1F], Event.flashLock] ∧
    (GBoot_ProcessCommand m).returned = true := by
  rw [ProcessCommand_erase m hlen hcmd, bind_run]
  cases he : m.erase_ok 0 <;>
  simp [Step.after, Exec.bind, SendAck_eq, SendNack_eq, hready, HAL_FLASHEx_Erase, unlocked,
    HAL_FLASH_Lock, Step.returned, GBOOT_ACK, GBOOT_NACK, APP_START_ADDRESS]

theorem C10_erase_app_witness :
    (GBoot_ProcessCommand (received [0x02, 0x11])).out
      = [Event.rxRead 0, Event.flashUnlock, Event.flashErase 0x08004000 48,
          Event.uartTransmit [if (received [0x02, 0x11]).erase_ok 0 = true then 0x79 else 0x1F],
          Event.flashLock] ∧
    (GBoot_ProcessCommand (received [0x02, 0x11])).returned = true :=
  C10_erase_app (received [0x02, 0x11]) (by decide) (by decide) rfl

/-- C11: at startup, if the trigger register holds 0x5AA5DEAD, GBoot_Init makes
no boot-transfer attempt (its run has no event of GBoot_JumpToApp), clears the
register and arms reception; for every other value its run continues, right
after the read of the register, with the run of GBoot_JumpToApp, which starts
with the load of the word at the region start and arms nothing, and only if
that call returns are the register cleared and reception armed; and whenever
GBoot_Init returns, the register holds 0 and reception has been armed exactly
once, with capacity GBOOT_RX_BUF_SIZE. -/
theorem C11_init_trigger (m : Machine) :
    (m.bkp_dr1 = 0x5AA5DEAD →
      (GBoot_Init m).out
        = [Event.pwrClkEnable, Event.bkpClkEnable, Event.enableBkUpAccess, Event.bkpRead,
            Event.bkpWrite 0, Event.receiveToIdle GBOOT_RX_BUF_SIZE] ∧
      (GBoot_Init m).returned = true) ∧
    (m.bkp_dr1 ≠ 0x5AA5DEAD →
      (GBoot_Init m).out
        = [Event.pwrClkEnable, Event.bkpClkEnable, Event.enableBkUpAccess, Event.bkpRead]
            ++ (GBoot_JumpToApp m).out
            ++ (if (GBoot_JumpToApp m).returned = true
                then [Event.bkpWrite 0, Event.receiveToIdle GBOOT_RX_BUF_SIZE] else []) ∧
      (GBoot_JumpToApp m).out.head? = some (Event.wordRead APP_START_ADDRESS) ∧
      (GBoot_JumpToApp m).out.filter isArm = []) ∧
    ((GBoot_Init m).returned = true →
      (GBoot_Init m).m.bkp_dr1 = 0 ∧
      (GBoot_Init m).out.filter isArm = [Event.receiveToIdle GBOOT_RX_BUF_SIZE]) := by
  rw [Init_eq, JumpToApp_eq_transfer]
  by_cases h : m.bkp_dr1 = GBOOT_MAGIC_KEY
  · have h' : m.bkp_dr1 = 0x5AA5DEAD := h
    simp [h, h', Step.returned, isArm, GBOOT_MAGIC_KEY]
  · have h' : ¬ m.bkp_dr1 = 0x5AA5DEAD := h
    by_cases hsp : memWord m.mem APP_START_ADDRESS &&& 0x2FFE0000 = 0x20000000
    · simp [h, h', hsp, Step.returned, isArm, transferEvents]
    · simp [h, h', hsp, Step.returned, isArm]

theorem C11_init_trigger_witness :
    ((GBoot_Init (withTrigger (received []) 0x5AA5DEAD)).out
        = [Event.pwrClkEnable, Event.bkpClkEnable, Event.enableBkUpAccess, Event.bkpRead,
            Event.bkpWrite 0, Event.receiveToIdle GBOOT_RX_BUF_SIZE] ∧
      (GBoot_Init (withTrigger (received []) 0x5AA5DEAD)).returned = true) ∧
    ((GBoot_Init (received [])).out
        = [Event.pwrClkEnable, Event.bkpClkEnable, Event.enableBkUpAccess, Event.bkpRead]
            ++ (GBoot_JumpToApp (received [])).out
            ++ (if (GBoot_JumpToApp (received [])).returned = true
                then [Event.bkpWrite 0, Event.receiveToIdle GBOOT_RX_BUF_SIZE] else []) ∧
      (GBoot_JumpToApp (received [])).out.head? = some (Event.wordRead APP_START_ADDRESS) ∧
      (GBoot_JumpToApp (received [])).out.filter isArm = []) ∧
    ((GBoot_Init (received [])).m.bkp_dr1 = 0 ∧
      (GBoot_Init (received [])).out.filter isArm = [Event.receiveToIdle GBOOT_RX_BUF_SIZE]) :=
  ⟨(C11_init_trigger (withTrigger (received []) 0x5AA5DEAD)).1 rfl,
   (C11_init_trigger (received [])).2.1 (by decide),
   (C11_init_trigger (received [])).2.2 (by decide)⟩

/-- C12: GBoot_JumpToApp hands control to the application if and only if the
word w stored at the region start satisfies (w AND 0x2FFE0000) = 0x20000000.
When the check fails the call returns, the machine is as it was, and the run
consists of the load of w alone: no de-initialisation, no tick-timer write, no
stack-pointer write, no jump.  An erased region (w = 0xFFFFFFFF) and w = 0 are
both rejected. -/
theorem C12_jump_check (m : Machine) :
    ((GBoot_JumpToApp m).ctl = Ctl.stop Halt.jumped
      ↔ memWord m.mem APP_START_ADDRESS &&& 0x2FFE0000 = 0x20000000) ∧
    (memWord m.mem APP_START_ADDRESS &&& 0x2FFE0000 ≠ 0x20000000 →
      GBoot_JumpToApp m
        = { ctl := Ctl.ret (), m := m, out := [Event.wordRead APP_START_ADDRESS] }) ∧
    (memWord m.mem APP_START_ADDRESS = 0xFFFFFFFF ∨ memWord m.mem APP_START_ADDRESS = 0 →
      GBoot_JumpToApp m
        = { ctl := Ctl.ret (), m := m, out := [Event.wordRead APP_START_ADDRESS] }) := by
  rw [JumpToApp_eq_transfer]
  refine ⟨?_, ?_, ?_⟩
  · by_cases hsp : memWord m.mem APP_START_ADDRESS &&& 0x2FFE0000 = 0x20000000 <;> simp [hsp]
  · intro hsp; simp [hsp]
  · rintro (h | h)
    · have : ¬ (0xFFFFFFFF &&& 0x2FFE0000 = 0x20000000) := by decide
      rw [h, if_neg this]
    · have : ¬ (0 &&& 0x2FFE0000 = 0x20000000) := by decide
      rw [h, if_neg this]

theorem C12_jump_check_witness :
    GBoot_JumpToApp (received [])
        = { ctl := Ctl.ret (), m := received [], out := [Event.wordRead APP_START_ADDRESS] } ∧
    GBoot_JumpToApp (withApp (received []) 0 0x08004101)
        = { ctl := Ctl.ret (), m := withApp (received []) 0 0x08004101,
            out := [Event.wordRead APP_START_ADDRESS] } ∧
    GBoot_JumpToApp (withApp (received []) 0x10005000 0x08004101)
        = { ctl := Ctl.ret (), m := withApp (received []) 0x10005000 0x08004101,
            out := [Event.wordRead APP_START_ADDRESS] } :=
  ⟨(C12_jump_check (received [])).2.2 (Or.inl (by decide)),
   (C12_jump_check (withApp (received []) 0 0x08004101)).2.2 (Or.inr (by decide)),
   (C12_jump_check (withApp (received []) 0x10005000 0x08004101)).2.1 (by decide)⟩

/-- C13: when the stack-pointer check passes, the run of GBoot_JumpToApp is, in
this order: the loads of the two words, de-initialise the UART, its receive
DMA channel, its transmit DMA channel, the clocks (RCC) and the HAL, write 0
to the tick timer's control, reload and counter registers, load the word at
the region start again and set the main stack pointer to it, and branch to
the address stored at region start + 4.  Nothing follows the branch: control
does not come back. -/
theorem C13_transfer_sequence (m : Machine)
    (hsp : memWord m.mem APP_START_ADDRESS &&& 0x2FFE0000 = 0x20000000) :
    (GBoot_JumpToApp m).out
      = [Event.wordRead APP_START_ADDRESS, Event.wordRead (APP_START_ADDRESS + 4),
          Event.uartDeInit, Event.dmaDeInitRx, Event.dmaDeInitTx, Event.rccDeInit,
          Event.halDeInit, Event.sysTickCtrl 0, Event.sysTickLoad 0, Event.sysTickVal 0,
          Event.wordRead APP_START_ADDRESS, Event.setMSP (memWord m.mem APP_START_ADDRESS),
          Event.branch (memWord m.mem (APP_START_ADDRESS + 4))] ∧
    (GBoot_JumpToApp m).out.filter (fun e => !isLoad e)
      = [Event.uartDeInit, Event.dmaDeInitRx, Event.dmaDeInitTx, Event.rccDeInit,
          Event.halDeInit, Event.sysTickCtrl 0, Event.sysTickLoad 0, Event.sysTickVal 0,
          Event.setMSP (memWord m.mem APP_START_ADDRESS),
          Event.branch (memWord m.mem (APP_START_ADDRESS + 4))] ∧
    (GBoot_JumpToApp m).ctl = Ctl.stop Halt.jumped := by
  rw [JumpToApp_eq_transfer]
  simp [hsp, transferEvents, isLoad]

theorem C13_transfer_sequence_witness :
    (GBoot_JumpToApp (withApp (received []) 0x20005000 0x08004101)).out.filter
        (fun e => !isLoad e)
      = [Event.uartDeInit, Event.dmaDeInitRx, Event.dmaDeInitTx, Event.rccDeInit,
          Event.halDeInit, Event.sysTickCtrl 0, Event.sysTickLoad 0, Event.sysTickVal 0,
          Event.setMSP (memWord (withApp (received []) 0x20005000 0x08004101).mem
            APP_START_ADDRESS),
          Event.branch (memWord (withApp (received []) 0x20005000 0x08004101).mem
            (APP_START_ADDRESS + 4))] ∧
    memWord (withApp (received []) 0x20005000 0x08004101).mem APP_START_ADDRESS = 0x20005000 ∧
    memWord (withApp (received []) 0x20005000 0x08004101).mem (APP_START_ADDRESS + 4)
      = 0x08004101 :=
  ⟨(C13_transfer_sequence (withApp (received []) 0x20005000 0x08004101) (by decide)).2.1,
   by decide, by decide⟩

/-- C14: for a frame whose first byte is JUMP_APP (0x05), once the transmit
path is idle the byte ACK is transmitted first and the run of GBoot_JumpToApp
comes after it; if the stack-pointer check fails, GBoot_ProcessCommand returns
and its whole run is the read of the opcode, the transmit of 0x79 and the load
of the word at the region start: no NACK, no teardown, no flash call.  For a
frame whose first byte is RESET_DEV (0x04) the ACK is transmitted, then
NVIC_SystemReset is called, and nothing follows. -/
theorem C14_ack_before_transfer (m : Machine)
    (hlen : 1 ≤ m.this.rx_len)
    (hready : m.uart_ready 0 = true) :
    (m.this.rx_buffer.getD 0 0 = CMD_JUMP_APP →
      (GBoot_ProcessCommand m).out
        = [Event.rxRead 0, Event.uartTransmit [0x79]] ++ (GBoot_JumpToApp m).out ∧
      (memWord m.mem APP_START_ADDRESS &&& 0x2FFE0000 ≠ 0x20000000 →
        (GBoot_ProcessCommand m).out
          = [Event.rxRead 0, Event.uartTransmit [0x79], Event.wordRead APP_START_ADDRESS] ∧
        (GBoot_ProcessCommand m).returned = true)) ∧
    (m.this.rx_buffer.getD 0 0 = CMD_RESET_DEV →
      (GBoot_ProcessCommand m).out
        = [Event.rxRead 0, Event.uartTransmit [0x79], Event.systemReset] ∧
      (GBoot_ProcessCommand m).ctl = Ctl.stop Halt.reset) := by
  constructor
  · intro hc
    rw [ProcessCommand_jump m hlen hc, bind_run]
    by_cases hsp : memWord m.mem APP_START_ADDRESS &&& 0x2FFE0000 = 0x20000000 <;>
      simp [Step.after, Exec.bind, SendAck_eq, JumpToApp_eq_transfer, afterSend, hready, hsp,
        Step.returned, GBOOT_ACK]
  · intro hc
    rw [ProcessCommand_reset m hlen hc, bind_run]
    simp [Step.after, Exec.bind, SendAck_eq, afterSend, hready, NVIC_SystemReset, GBOOT_ACK]

theorem C14_ack_before_transfer_witness :
    ((GBoot_ProcessCommand (received [0x05])).out
        = [Event.rxRead 0, Event.uartTransmit [0x79], Event.wordRead APP_START_ADDRESS] ∧
      (GBoot_ProcessCommand (received [0x05])).returned = true) ∧
    ((GBoot_ProcessCommand (received [0x04])).out
        = [Event.rxRead 0, Event.uartTransmit [0x79], Event.systemReset] ∧
      (GBoot_ProcessCommand (received [0x04])).ctl = Ctl.stop Halt.reset) :=
  ⟨((C14_ack_before_transfer (received [0x05]) (by decide) rfl).1 (by decide)).2 (by decide),
   (C14_ack_before_transfer (received [0x04]) (by decide) rfl).2 (by decide)⟩

/-- C15: write then read back.  In the flash model in which a successful word
program at address a stores the four bytes of the word, lowest first, at a,
a + 1, a + 2, a + 3: for a full-size WRITE_PAGE frame whose address A is at
least APP_START_ADDRESS with A + PAGE_SIZE not wrapping, when every program
call succeeds (as it does on erased flash) and the transmit path is idle, the
only transmit is that of the single byte ACK, afterwards the PAGE_SIZE bytes
of flash at A .. A + PAGE_SIZE - 1 are the page-data bytes of the frame (frame
bytes 5 .. 5 + PAGE_SIZE - 1) in order, and every byte of memory outside that
range is what it was. -/
theorem C15_write_read_back (m : Machine)
    (hcmd : m.this.rx_buffer.getD 0 0 = CMD_WRITE_PAGE)
    (hlen : 1 + 4 + FLASH_PAGE_SIZE ≤ m.this.rx_len)
    (hbytes : IsBytes m.this.rx_buffer)
    (haddr : APP_START_ADDRESS ≤ leAddr m.this.rx_buffer)
    (hfit : leAddr m.this.rx_buffer + FLASH_PAGE_SIZE ≤ 2 ^ 32)
    (hok : ∀ n, m.program_ok n = true)
    (hready : m.uart_ready 0 = true) :
    (GBoot_ProcessCommand m).out.filter isTransmit = [Event.uartTransmit [0x79]] ∧
    (∀ j, j < FLASH_PAGE_SIZE →
      (GBoot_ProcessCommand m).m.mem (leAddr m.this.rx_buffer + j)
        = m.this.rx_buffer.getD (5 + j) 0) ∧
    (∀ a, a < leAddr m.this.rx_buffer ∨ leAddr m.this.rx_buffer + FLASH_PAGE_SIZE ≤ a →
      (GBoot_ProcessCommand m).m.mem a = m.mem a) ∧
    (GBoot_ProcessCommand m).returned = true := by
  have hA := frameAddr_eq_leAddr _ hbytes
  obtain ⟨f1, f2⟩ := write_run_final_mem m hcmd (by omega) (by rw [hA]; exact haddr) hready
  obtain ⟨-, c2, -⟩ := write_run_calls m hcmd (by omega) (by rw [hA]; exact haddr) hready
  obtain ⟨-, p2⟩ := loop_all_ok 256 m.program_ok (fun t _ => hok t)
  have hmem := writeLoop_mem (leAddr m.this.rx_buffer)
    (by simp only [FLASH_PAGE_SIZE] at hfit; exact hfit) 256 0 (unlocked m) (by omega) hbytes
    (fun t _ => hok t)
  simp only [Nat.mul_zero, Nat.add_zero] at hmem
  rw [hA] at f1
  refine ⟨?_, ?_, ?_, c2⟩
  · rw [f2, p2]; rfl
  · intro j hj
    simp only [FLASH_PAGE_SIZE] at hj
    rw [f1, hmem]
    have hin : leAddr m.this.rx_buffer ≤ leAddr m.this.rx_buffer + j
        ∧ leAddr m.this.rx_buffer + j < leAddr m.this.rx_buffer + 1024 := by omega
    rw [if_pos hin, Nat.add_sub_cancel_left]
    rfl
  · intro a ha
    simp only [FLASH_PAGE_SIZE] at ha
    rw [f1, hmem]
    have hout : ¬ (leAddr m.this.rx_buffer ≤ a ∧ a < leAddr m.this.rx_buffer + 1024) := by omega
    rw [if_neg hout]
    rfl

theorem C15_write_read_back_witness :
    (GBoot_ProcessCommand (received (pageFrame 0x00 0x40 0x00 0x08 0xAB))).out.filter isTransmit
      = [Event.uartTransmit [0x79]] ∧
    (∀ j, j < FLASH_PAGE_SIZE →
      (GBoot_ProcessCommand (received (pageFrame 0x00 0x40 0x00 0x08 0xAB))).m.mem
          (leAddr (received (pageFrame 0x00 0x40 0x00 0x08 0xAB)).this.rx_buffer + j)
        = (received (pageFrame 0x00 0x40 0x00 0x08 0xAB)).this.rx_buffer.getD (5 + j) 0) ∧
    (∀ a, a < leAddr (received (pageFrame 0x00 0x40 0x00 0x08 0xAB)).this.rx_buffer
        ∨ leAddr (received (pageFrame 0x00 0x40 0x00 0x08 0xAB)).this.rx_buffer
            + FLASH_PAGE_SIZE ≤ a →
      (GBoot_ProcessCommand (received (pageFrame 0x00 0x40 0x00 0x08 0xAB))).m.mem a
        = (received (pageFrame 0x00 0x40 0x00 0x08 0xAB)).mem a) ∧
    (GBoot_ProcessCommand (received (pageFrame 0x00 0x40 0x00 0x08 0xAB))).returned = true :=
  C15_write_read_back (received (pageFrame 0x00 0x40 0x00 0x08 0xAB)) (by decide)
    (Nat.le_of_eq (rx_len_pageFrame _ _ _ _ _).symm)
    (isBytes_received _ (isBytes_pageFrame _ _ _ _ _ (by decide) (by decide) (by decide)
      (by decide) (by decide)))
    (by decide) (by decide) (fun _ => rfl) rfl

/-- C16: for every data sequence holding at least the bytes to be copied and
every requested length len, GBoot_SendResponse, once the transmit path is
idle, copies the first n = min(len, GBOOT_TX_BUF_SIZE) bytes of the data into
tx_buffer[0..n-1], leaves tx_buffer[n..127] as it was, starts one transmit, of
exactly these n bytes, and returns.  So a response of at most
GBOOT_TX_BUF_SIZE bytes is transmitted unmodified and a longer one is cut to
its first GBOOT_TX_BUF_SIZE bytes. -/
theorem C16_send_response (m : Machine) (data : List Nat) (len : Nat)
    (hready : m.uart_ready 0 = true)
    (htx : m.this.tx_buffer.length = GBOOT_TX_BUF_SIZE)
    (hdata : min len GBOOT_TX_BUF_SIZE ≤ data.length) :
    (GBoot_SendResponse data len m).m.this.tx_buffer
      = data.take (min len GBOOT_TX_BUF_SIZE)
          ++ m.this.tx_buffer.drop (min len GBOOT_TX_BUF_SIZE) ∧
    (GBoot_SendResponse data len m).m.this.tx_buffer.length = GBOOT_TX_BUF_SIZE ∧
    (GBoot_SendResponse data len m).out
      = [Event.uartTransmit (data.take (min len GBOOT_TX_BUF_SIZE))] ∧
    (data.take (min len GBOOT_TX_BUF_SIZE)).length = min len GBOOT_TX_BUF_SIZE ∧
    (GBoot_SendResponse data len m).returned = true ∧
    (data.length = len → len ≤ GBOOT_TX_BUF_SIZE →
      (GBoot_SendResponse data len m).out = [Event.uartTransmit data]) ∧
    (GBOOT_TX_BUF_SIZE < len →
      (GBoot_SendResponse data len m).out
        = [Event.uartTransmit (data.take GBOOT_TX_BUF_SIZE)]) := by
  rw [SendResponse_ready data len m hready, clamp_eq_min]
  have hcopy := memcpy_eq m.this.tx_buffer data _ hdata
  have hlen : (data.take (min len GBOOT_TX_BUF_SIZE)).length = min len GBOOT_TX_BUF_SIZE := by
    rw [List.length_take]; omega
  have hout : (memcpy m.this.tx_buffer data (min len GBOOT_TX_BUF_SIZE)).take
      (min len GBOOT_TX_BUF_SIZE) = data.take (min len GBOOT_TX_BUF_SIZE) := by
    rw [hcopy, List.take_append_of_le_length (by omega), List.take_take, Nat.min_self]
  refine ⟨hcopy, ?_, ?_, hlen, rfl, ?_, ?_⟩
  · show (memcpy m.this.tx_buffer data (min len GBOOT_TX_BUF_SIZE)).length = GBOOT_TX_BUF_SIZE
    rw [hcopy, List.length_append, hlen, List.length_drop, htx]
    omega
  · show [Event.uartTransmit _] = _
    rw [hout]
  · intro hd hl
    show [Event.uartTransmit _] = _
    rw [hout, Nat.min_eq_left hl, ← hd, List.take_length]
  · intro hl
    show [Event.uartTransmit _] = _
    rw [hout, Nat.min_eq_right (Nat.le_of_lt hl)]

theorem C16_send_response_witness :
    (GBoot_SendResponse [0x01, 0x02] 2 (received [0x01])).out
        = [Event.uartTransmit [0x01, 0x02]] ∧
    (GBoot_SendResponse (List.replicate 200 0x55) 200 (received [0x01])).out
        = [Event.uartTransmit ((List.replicate 200 0x55).take GBOOT_TX_BUF_SIZE)] :=
  ⟨(C16_send_response (received [0x01]) [0x01, 0x02] 2 rfl (by simp [received]) (by decide)).2.2.2.2.2.1
      rfl (by decide),
   (C16_send_response (received [0x01]) (List.replicate 200 0x55) 200 rfl (by simp [received])
      (by rw [List.length_replicate]; decide)).2.2.2.2.2.2 (by decide)⟩

/-- C17: one pass through the body of the loop of GBoot_Run.  If the
frame-ready flag is clear the pass does nothing.  If it is set and
GBoot_ProcessCommand returns, whatever it answered, the run of the pass is the
run of GBoot_ProcessCommand, all its buffer reads and transmits included,
followed by one arming of reception with capacity GBOOT_RX_BUF_SIZE;
GBoot_ProcessCommand itself never arms reception, so this is the only arming
and it comes after the processing; and the flag is clear afterwards. -/
theorem C17_run_rearms_after_processing (m : Machine) :
    (m.this.cmd_received = 0 →
      GBoot_Run_body m = { ctl := Ctl.ret (), m := m, out := [] }) ∧
    (m.this.cmd_received ≠ 0 → (GBoot_ProcessCommand m).returned = true →
      (GBoot_Run_body m).out
        = (GBoot_ProcessCommand m).out ++ [Event.receiveToIdle GBOOT_RX_BUF_SIZE] ∧
      (GBoot_ProcessCommand m).out.filter isArm = [] ∧
      (GBoot_Run_body m).out.filter isArm = [Event.receiveToIdle GBOOT_RX_BUF_SIZE] ∧
      (GBoot_Run_body m).m.this.cmd_received = 0 ∧
      (GBoot_Run_body m).returned = true) := by
  refine ⟨Run_body_idle m, fun h hret => ?_⟩
  rw [Run_body_returned m h hret]
  refine ⟨rfl, ProcessCommand_no_arm m, ?_, rfl, rfl⟩
  simp only [List.filter_append, ProcessCommand_no_arm m, List.nil_append]
  rfl

theorem C17_run_rearms_after_processing_witness :
    GBoot_Run_body created = { ctl := Ctl.ret (), m := created, out := [] } ∧
    ((GBoot_Run_body (received [0x01])).out
        = (GBoot_ProcessCommand (received [0x01])).out
            ++ [Event.receiveToIdle GBOOT_RX_BUF_SIZE] ∧
      (GBoot_ProcessCommand (received [0x01])).out.filter isArm = [] ∧
      (GBoot_Run_body (received [0x01])).out.filter isArm
        = [Event.receiveToIdle GBOOT_RX_BUF_SIZE] ∧
      (GBoot_Run_body (received [0x01])).m.this.cmd_received = 0 ∧
      (GBoot_Run_body (received [0x01])).returned = true) :=
  ⟨(C17_run_rearms_after_processing created).1 rfl,
   (C17_run_rearms_after_processing (received [0x01])).2 (by decide) (by decide)⟩

/-- C18: the length is checked before a field is read.  For every recorded
length, every buffer content and every outcome of the hardware calls, every
index at which GBoot_ProcessCommand reads the receive buffer is below rx_len
and below the capacity GBOOT_RX_BUF_SIZE; with rx_len = 0 the run is empty, so
nothing is read; a WRITE_PAGE frame shorter than 1 + 4 + PAGE_SIZE is read at
index 0 only; and the bytes at and beyond index rx_len have no influence: a
buffer that differs from the given one only there gives the same run, the
same way of leaving, and the same final machine up to the buffer. -/
theorem C18_reads_within_frame (m : Machine) :
    (∀ i, Event.rxRead i ∈ (GBoot_ProcessCommand m).out →
      i < m.this.rx_len ∧ i < GBOOT_RX_BUF_SIZE) ∧
    (m.this.rx_len = 0 → (GBoot_ProcessCommand m).out = []) ∧
    (m.this.rx_buffer.getD 0 0 = CMD_WRITE_PAGE → m.this.rx_len < 1 + 4 + FLASH_PAGE_SIZE →
      ∀ i, Event.rxRead i ∈ (GBoot_ProcessCommand m).out → i = 0) ∧
    (∀ rx, (∀ k, k < m.this.rx_len → rx.getD k 0 = m.this.rx_buffer.getD k 0) →
      (GBoot_ProcessCommand (withRx m rx)).out = (GBoot_ProcessCommand m).out ∧
      (GBoot_ProcessCommand (withRx m rx)).ctl = (GBoot_ProcessCommand m).ctl ∧
      (GBoot_ProcessCommand (withRx m rx)).m = withRx (GBoot_ProcessCommand m).m rx) := by
  refine ⟨ProcessCommand_reads m, ?_, ?_, ?_⟩
  · intro h0
    rw [ProcessCommand_empty m (by omega)]
  · intro hc hs i hi
    by_cases h1 : 1 ≤ m.this.rx_len
    · exact ProcessCommand_reads_short m i h1 hc (by omega) hi
    · rw [ProcessCommand_empty m (by omega)] at hi
      simp at hi
  · intro rx hag
    rw [ProcessCommand_withRx m rx hag]
    exact ⟨rfl, rfl, rfl⟩

theorem C18_reads_within_frame_witness :
    (0 < (received [0x03]).this.rx_len ∧ 0 < GBOOT_RX_BUF_SIZE) ∧
    (GBoot_ProcessCommand (received [])).out = [] ∧
    (Event.rxRead 0 ∈ (GBoot_ProcessCommand (received [0x03])).out ∧ (0 : Nat) = 0) ∧
    ((GBoot_ProcessCommand (withRx (received [0x01]) [0x01, 0xEE, 0xEE])).out
        = (GBoot_ProcessCommand (received [0x01])).out ∧
      (GBoot_ProcessCommand (withRx (received [0x01]) [0x01, 0xEE, 0xEE])).ctl
        = (GBoot_ProcessCommand (received [0x01])).ctl ∧
      (GBoot_ProcessCommand (withRx (received [0x01]) [0x01, 0xEE, 0xEE])).m
        = withRx (GBoot_ProcessCommand (received [0x01])).m [0x01, 0xEE, 0xEE]) :=
  have hmem : Event.rxRead 0 ∈ (GBoot_ProcessCommand (received [0x03])).out := by decide
  ⟨(C18_reads_within_frame (received [0x03])).1 0 hmem,
   (C18_reads_within_frame (received [])).2.1 rfl,
   ⟨hmem, (C18_reads_within_frame (received [0x03])).2.2.1 (by decide) (by decide) 0 hmem⟩,
   (C18_reads_within_frame (received [0x01])).2.2.2 [0x01, 0xEE, 0xEE]
     (fun k hk => by
       have hk0 : k = 0 := Nat.lt_one_iff.mp hk
       subst hk0
       rfl)⟩

/-- C19 (as amended): at startup the trigger register is read exactly once, on
every path.  If it holds the magic key it is cleared right after the read.
For every other value the boot-transfer attempt comes right after the read;
if the stack-pointer check fails, the register is cleared after that attempt
and GBoot_Init returns; if the check passes, control goes to the application
and the register is never written, so it keeps its value.  Whenever GBoot_Init
returns the register has been written exactly once, with 0, after the read. -/
theorem C19_trigger_consumed (m : Machine) :
    (GBoot_Init m).out.filter isBkpRead = [Event.bkpRead] ∧
    (m.bkp_dr1 = GBOOT_MAGIC_KEY →
      (GBoot_Init m).out
        = [Event.pwrClkEnable, Event.bkpClkEnable, Event.enableBkUpAccess, Event.bkpRead,
            Event.bkpWrite 0, Event.receiveToIdle GBOOT_RX_BUF_SIZE]) ∧
    (m.bkp_dr1 ≠ GBOOT_MAGIC_KEY →
      memWord m.mem APP_START_ADDRESS &&& 0x2FFE0000 ≠ 0x20000000 →
      (GBoot_Init m).out
        = [Event.pwrClkEnable, Event.bkpClkEnable, Event.enableBkUpAccess, Event.bkpRead,
            Event.wordRead APP_START_ADDRESS, Event.bkpWrite 0,
            Event.receiveToIdle GBOOT_RX_BUF_SIZE]) ∧
    (m.bkp_dr1 ≠ GBOOT_MAGIC_KEY →
      memWord m.mem APP_START_ADDRESS &&& 0x2FFE0000 = 0x20000000 →
      (GBoot_Init m).out.filter isBkpWrite = [] ∧
      (GBoot_Init m).ctl = Ctl.stop Halt.jumped ∧
      (GBoot_Init m).m.bkp_dr1 = m.bkp_dr1) ∧
    ((GBoot_Init m).returned = true →
      (GBoot_Init m).out.filter isBkpWrite = [Event.bkpWrite 0] ∧
      (GBoot_Init m).m.bkp_dr1 = 0) := by
  rw [Init_eq]
  by_cases h : m.bkp_dr1 = GBOOT_MAGIC_KEY
  · simp [h, Step.returned, isBkpRead, isBkpWrite]
  · by_cases hsp : memWord m.mem APP_START_ADDRESS &&& 0x2FFE0000 = 0x20000000
    · simp [h, hsp, Step.returned, isBkpRead, isBkpWrite, transferEvents]
    · simp [h, hsp, Step.returned, isBkpRead, isBkpWrite]

theorem C19_trigger_consumed_witness :
    (GBoot_Init (withTrigger (received []) GBOOT_MAGIC_KEY)).out
        = [Event.pwrClkEnable, Event.bkpClkEnable, Event.enableBkUpAccess, Event.bkpRead,
            Event.bkpWrite 0, Event.receiveToIdle GBOOT_RX_BUF_SIZE] ∧
    (GBoot_Init (received [])).out
        = [Event.pwrClkEnable, Event.bkpClkEnable, Event.enableBkUpAccess, Event.bkpRead,
            Event.wordRead APP_START_ADDRESS, Event.bkpWrite 0,
            Event.receiveToIdle GBOOT_RX_BUF_SIZE] ∧
    ((GBoot_Init (withApp (received []) 0x20005000 0x08004101)).out.filter isBkpWrite = [] ∧
      (GBoot_Init (withApp (received []) 0x20005000 0x08004101)).ctl = Ctl.stop Halt.jumped ∧
      (GBoot_Init (withApp (received []) 0x20005000 0x08004101)).m.bkp_dr1
        = (withApp (received []) 0x20005000 0x08004101).bkp_dr1) ∧
    ((GBoot_Init (received [])).out.filter isBkpWrite = [Event.bkpWrite 0] ∧
      (GBoot_Init (received [])).m.bkp_dr1 = 0) :=
  ⟨(C19_trigger_consumed (withTrigger (received []) GBOOT_MAGIC_KEY)).2.1 rfl,
   (C19_trigger_consumed (received [])).2.2.1 (by decide) (by decide),
   (C19_trigger_consumed (withApp (received []) 0x20005000 0x08004101)).2.2.2.1 (by decide)
     (by decide),
   (C19_trigger_consumed (received [])).2.2.2.2 (by decide)⟩

/-- C19 (as stated) fails on both paths that attempt the boot transfer.  With a
trigger other than the magic key and a valid application image, control goes
to the application and the register is never cleared.  With a trigger other
than the magic key and erased flash, the register is cleared, but only after
the boot-transfer attempt (the load of the word at the region start), not
immediately after the read. -/
theorem C19_counterexample :
    ((withApp (received []) 0x20005000 0x08004101).bkp_dr1 ≠ GBOOT_MAGIC_KEY ∧
      (GBoot_Init (withApp (received []) 0x20005000 0x08004101)).ctl = Ctl.stop Halt.jumped ∧
      (GBoot_Init (withApp (received []) 0x20005000 0x08004101)).out.filter isBkpWrite = [] ∧
      (GBoot_Init (withApp (received []) 0x20005000 0x08004101)).out.countP isBkpWrite ≠ 1) ∧
    ((received []).bkp_dr1 ≠ GBOOT_MAGIC_KEY ∧
      (GBoot_Init (received [])).out
        = [Event.pwrClkEnable, Event.bkpClkEnable, Event.enableBkUpAccess, Event.bkpRead,
            Event.wordRead APP_START_ADDRESS, Event.bkpWrite 0,
            Event.receiveToIdle GBOOT_RX_BUF_SIZE]) := by
  have hsp : memWord (withApp (received []) 0x20005000 0x08004101).mem APP_START_ADDRESS
      &&& 0x2FFE0000 = 0x20000000 := by decide
  have hk : (withApp (received []) 0x20005000 0x08004101).bkp_dr1 ≠ GBOOT_MAGIC_KEY := by decide
  have hk2 : (received []).bkp_dr1 ≠ GBOOT_MAGIC_KEY := by decide
  have hsp2 : ¬ (memWord (received []).mem APP_START_ADDRESS &&& 0x2FFE0000 = 0x20000000) := by
    decide
  refine ⟨⟨hk, ?_, ?_, ?_⟩, hk2, ?_⟩
  · rw [Init_eq, if_neg hk, if_pos hsp]
  · rw [Init_eq, if_neg hk, if_pos hsp]; rfl
  · rw [Init_eq, if_neg hk, if_pos hsp]; decide
  · rw [Init_eq, if_neg hk2, if_neg hsp2]

/-- C20: GBoot_JumpToApp hands over control exactly when the word w at the
region start passes the check (w AND 0x2FFE0000) = 0x20000000.  The check looks
at bit 29 (set) and bits 17..27 (clear) only, so bits 28, 30, 31 and 0..16 are
ignored; the 32-bit words it accepts are exactly those in one of the eight
windows [B, B + 0x1FFFF], B in 0x20000000, 0x30000000, 0x60000000, 0x70000000,
0xA0000000, 0xB0000000, 0xE0000000, 0xF0000000; every word in
0x20000000..0x2001FFFF is accepted, whatever its alignment; and there are
exactly 8 * 2^17 accepted words. -/
theorem C20_accepted_stack_pointers :
    (∀ m : Machine, (GBoot_JumpToApp m).ctl = Ctl.stop Halt.jumped
      ↔ spCheck (memWord m.mem APP_START_ADDRESS) = true) ∧
    (∀ w, spCheck w = true ↔ w / 2 ^ 29 % 2 = 1 ∧ w / 2 ^ 17 % 2 ^ 11 = 0) ∧
    (∀ w, w < 2 ^ 32 →
      (spCheck w = true ↔ ∃ B ∈ spWindows, B ≤ w ∧ w ≤ B + 0x1FFFF)) ∧
    (∀ w, 0x20000000 ≤ w → w ≤ 0x2001FFFF → spCheck w = true) ∧
    ((Finset.range (2 ^ 32)).filter (fun w => spCheck w = true)).card = 8 * 2 ^ 17 := by
  refine ⟨JumpToApp_jumps_iff, ?_, spCheck_windows, ?_, spCheck_accepted_card⟩
  · intro w
    simp only [spCheck, decide_eq_true_eq, spCheck_bits]
  · intro w h1 h2
    simp only [spCheck, decide_eq_true_eq, spCheck_bits]
    omega

theorem C20_accepted_stack_pointers_witness :
    (spCheck 0x20001235 = true ↔ ∃ B ∈ spWindows, B ≤ 0x20001235 ∧ 0x20001235 ≤ B + 0x1FFFF) ∧
    spCheck 0x20001235 = true ∧
    (spCheck 0xF001FFFF = true ↔ ∃ B ∈ spWindows, B ≤ 0xF001FFFF ∧ 0xF001FFFF ≤ B + 0x1FFFF) ∧
    (spCheck 0x20020000 = true ↔ ∃ B ∈ spWindows, B ≤ 0x20020000 ∧ 0x20020000 ≤ B + 0x1FFFF) :=
  ⟨C20_accepted_stack_pointers.2.2.1 0x20001235 (by decide),
   C20_accepted_stack_pointers.2.2.2.1 0x20001235 (by decide) (by decide),
   C20_accepted_stack_pointers.2.2.1 0xF001FFFF (by decide),
   C20_accepted_stack_pointers.2.2.1 0x20020000 (by decide)⟩

end GBoot
